import Mathlib

/-!
Long-running-operation poller (`sdk/azcore/poller.go`).

A shallow embedding of the LRO poller of `azcore`: the response classifier
`lroStatusCodeValid`, the constructor `NewLROPoller`, the three polling
strategies (`opPoller`, `locPoller`, `nopPoller`) and the methods `Done`,
`Poll`, `ResumeToken`, `FinalResponse` and `PollUntilDone` of `LROPoller`;
and of the header sanitizer of `testframework`
(`sdk/internal/testframework/recording_sanitizer.go`).

Conventions of the embedding.

* A Go `error` value is an `Error`; a nil-able `error` is an `Option Error`.
* A Go pointer that may be nil is an `Option`; dereferencing `none` is a
  run-time panic, which the methods report as `Run.panicked`.
* A Go `int` is an `Int`; no arithmetic is done on status codes.
* `*Response` objects are mutable (their body is a stream that is consumed by
  reading); methods that read a body return the response as it is afterwards.
* The transport pipeline is a function from the requests sent so far and the
  request to send to the reply; the list of requests sent is threaded through
  every method so that "sends no request" is a statement about that list.
-/

namespace azcore

/-! ## Errors, headers, bodies, requests and responses -/

/-- A Go `error` value, identified by its message. -/
structure Error where
  msg : String
  deriving DecidableEq, Repr

/-- The Go `http.Header`: a map from canonical header names to their values,
kept as an association list in which the first entry of a key is the map's
entry. -/
abbrev Header := List (String × List String)

/-- The method `http.Header.Get`: the first value stored under the key, or the
empty string when the key is absent or has no value. Both keys looked up by the
poller are already in canonical form, so no canonicalisation step is shown. -/
def Header.Get (h : Header) (key : String) : String :=
  match h.lookup key with
  | some (v :: _) => v
  | _ => ""

/-- An `io.ReadCloser` body: the bytes not yet read and the error, if any, that
reading to the end reports. -/
structure Body where
  unread : String
  readErr : Option Error
  deriving DecidableEq, Repr

/-- The call `ioutil.ReadAll(b)`: the bytes read, the error reported, and the
stream as it is left (drained). -/
def Body.ReadAll (b : Body) : String × Option Error × Body :=
  (b.unread, b.readErr, { b with unread := "" })

/-- The reader `ioutil.NopCloser(bytes.NewReader(body))`. -/
def Body.ofBytes (body : String) : Body :=
  { unread := body, readErr := none }

/-- The fields of `http.Request` the poller reads. -/
structure HttpRequest where
  Method : String
  URL : String
  deriving DecidableEq, Repr

/-- An `azcore.Response` together with the `http.Response` it embeds. -/
structure Response where
  StatusCode : Int
  Header : Header
  Body : Body
  Request : Option HttpRequest
  deriving DecidableEq, Repr

def headerOperationLocation : String := "Operation-Location"

def headerLocation : String := "Location"

def StatusOK : Int := 200

def StatusCreated : Int := 201

def StatusAccepted : Int := 202

def StatusNoContent : Int := 204

def MethodGet : String := "GET"

def MethodPatch : String := "PATCH"

def MethodPost : String := "POST"

def MethodPut : String := "PUT"

/-- Modelled from the spec: `Response.HasStatusCode` is declared elsewhere in
the package (not in `poller.go`); it reports whether the response's status
code is one of the codes passed to it. -/
def Response.HasStatusCode (resp : Response) (statusCodes : List Int) : Bool :=
  statusCodes.any (fun sc => resp.StatusCode == sc)

/-- Source `lroStatusCodeValid`: true if the LRO response contains a valid
HTTP status code. -/
def lroStatusCodeValid (resp : Response) : Bool :=
  resp.HasStatusCode [StatusOK, StatusAccepted, StatusCreated, StatusNoContent]

/-! ## Collaborators outside the file -/

/-- The value `encoding/json` decodes into an `interface{}`. -/
inductive JsonValue where
  | null : JsonValue
  | bool (b : Bool) : JsonValue
  | number (text : String) : JsonValue
  | string (s : String) : JsonValue
  | array (items : List JsonValue) : JsonValue
  | object (fields : List (String × JsonValue)) : JsonValue

/-- The caller-supplied output shape `respType` of `FinalResponse`, by name. -/
abbrev RespType := String

/-- The library and package functions the poller calls and whose code is not
part of `poller.go`. -/
structure Env where
  /-- The call `json.Unmarshal(body, &jsonBody)` with
  `jsonBody map[string]interface{}`: the decoded map, or the decoding error. -/
  jsonObject : String → Except Error (List (String × JsonValue))
  /-- The call `json.Unmarshal(body, respType)`: the decoding error, if any. -/
  jsonUnmarshal : String → RespType → Option Error
  /-- The error `NewRequest` reports for an endpoint it does not accept. -/
  endpointError : String → Option Error

/-- Modelled from the spec: `NewRequest` is declared elsewhere in the package
(not in `poller.go`); it builds a request with the given method to the given
URL, or fails on an endpoint it does not accept. -/
def NewRequest (env : Env) (httpMethod : String) (endpoint : String) :
    Except Error HttpRequest :=
  match env.endpointError endpoint with
  | some e => .error e
  | none => .ok { Method := httpMethod, URL := endpoint }

/-- The transport pipeline: `Do` maps the requests sent so far and the request
to send to the response received or the transport error. -/
structure Pipeline where
  Do : List HttpRequest → HttpRequest → Except Error Response

/-- Modelled from the spec: the zero value of `Pipeline`, which `NewLROPoller`
leaves in the poller of a synchronous completion; it has no policy to send a
request with, and sending through it fails. -/
def Pipeline.zero : Pipeline :=
  { Do := fun _ _ => .error ⟨"no more policies"⟩ }

/-- Source `ErrorUnmarshaller`: the func to invoke when the endpoint returns an
error response that requires unmarshalling; it may return a nil error. -/
abbrev ErrorUnmarshaller := Response → Option Error

/-- The outcome of running a method: it returns, or the goroutine panics. -/
inductive Run (α : Type) where
  | done (v : α) : Run α
  | panicked (reason : String) : Run α

/-! ## `strings.EqualFold` -/

/-- The constant `utf8.RuneSelf`. -/
def RuneSelf : Nat := 0x80

/-- The table `unicode.SimpleFold` on the folding orbits of the ASCII runes:
the next larger rune of the orbit, wrapping round to the smallest. The orbits
are `A a` ... `Z z`, with U+212A (Kelvin sign) in the orbit of `k` and U+017F
(long s) in the orbit of `s`. Runes outside these orbits are left fixed here;
`EqualFold` consults the table only on the orbit of the smaller of two runes,
so against an ASCII operand no other entry is read. -/
def SimpleFold (r : Nat) : Nat :=
  if r = 0x4B then 0x6B
  else if r = 0x6B then 0x212A
  else if r = 0x212A then 0x4B
  else if r = 0x53 then 0x73
  else if r = 0x73 then 0x17F
  else if r = 0x17F then 0x53
  else if 0x41 ≤ r ∧ r ≤ 0x5A then r + 0x20
  else if 0x61 ≤ r ∧ r ≤ 0x7A then r - 0x20
  else r

/-- The loop `for r != sr && r < tr { r = unicode.SimpleFold(r) }` of
`EqualFold`, run for at most `fuel` tests of its condition; returns `r` as the
loop leaves it. -/
def foldSearch : Nat → Nat → Nat → Nat → Nat
  | 0, _, _, r => r
  | fuel + 1, sr, tr, r =>
    if r ≠ sr ∧ r < tr then foldSearch fuel sr tr (SimpleFold r) else r

/-- One turn of the loop of `EqualFold` on the runes `sr` and `tr` taken from
the two strings: whether the comparison goes on (`continue`) rather than
returning false. Three tests of the inner loop's condition are enough for every
orbit of `SimpleFold`. -/
def foldEqualRune (sr tr : Nat) : Bool :=
  if tr = sr then true
  else
    let lo := if tr < sr then tr else sr
    let hi := if tr < sr then sr else tr
    if hi < RuneSelf then
      decide (0x41 ≤ lo ∧ lo ≤ 0x5A ∧ hi = lo + 0x61 - 0x41)
    else
      decide (foldSearch 3 lo hi (SimpleFold lo) = hi)

/-- The function `strings.EqualFold` on the runes of two strings. -/
def EqualFoldRunes : List Nat → List Nat → Bool
  | sr :: s, tr :: t => if foldEqualRune sr tr then EqualFoldRunes s t else false
  | [], [] => true
  | _, _ => false

/-- The runes of a (valid UTF-8) string. -/
def runes (s : String) : List Nat :=
  s.toList.map Char.toNat

/-- The function `strings.EqualFold`: whether two strings are equal under
Unicode simple case folding. -/
def EqualFold (s t : String) : Bool :=
  EqualFoldRunes (runes s) (runes t)

/-! ## The polling strategies -/

/-- Source `extractJSONValue`: reads the reader to its end, decodes a JSON
object and returns the string stored under `val`; also returns the reader as
the read leaves it. -/
def extractJSONValue (env : Env) (r : Body) (val : String) :
    Except Error String × Body :=
  match r.ReadAll with
  | (_, some err, r1) => (.error err, r1)
  | (body, none, r1) =>
    match env.jsonObject body with
    | .error err => (.error err, r1)
    | .ok jsonBody =>
      if jsonBody.length = 0 then
        (.error ⟨"the response does not contain a body"⟩, r1)
      else
        match jsonBody.lookup val with
        | none => (.error ⟨"the response body does not contain field %!s(<nil>)"⟩, r1)
        | some (.string vv) => (.ok vv, r1)
        | some _ => (.error ⟨"the status value  was not in string format"⟩, r1)

/-- Source `opPoller`: polls on the operation-location header. -/
structure opPoller where
  req : Option HttpRequest
  pollURL : String
  locURL : String
  status : String
  deriving DecidableEq, Repr

/-- Source `locPoller`: polls on the location header. -/
structure locPoller where
  pollURL : String
  status : Int
  deriving DecidableEq, Repr

/-- Source `nopPoller`: used if the endpoint didn't return any polling headers
(synchronous completion). -/
structure nopPoller where
  deriving DecidableEq, Repr

def opPoller.PollURL (p : opPoller) : String :=
  p.pollURL

def opPoller.Done (p : opPoller) : Bool :=
  EqualFold p.status "succeeded" ||
    EqualFold p.status "failed" ||
    EqualFold p.status "cancelled"

/-- Source `opPoller.Update`: returns the strategy and the response as the call
leaves them, and the error returned. -/
def opPoller.Update (env : Env) (p : opPoller) (resp : Response) :
    opPoller × Response × Option Error :=
  match resp.Body.ReadAll with
  | (_, some err, b1) => (p, { resp with Body := b1 }, some err)
  | (body, none, _) =>
    match extractJSONValue env (Body.ofBytes body) "status" with
    | (.error err, b2) => (p, { resp with Body := b2 }, some err)
    | (.ok status, b2) =>
      let p1 := { p with status := status }
      let opLoc := resp.Header.Get headerOperationLocation
      (if opLoc ≠ "" then { p1 with pollURL := opLoc } else p1,
        { resp with Body := b2 }, none)

/-- Source `opPoller.FinalGetURL`: returns the URL or the error, and the
response as the call leaves it. -/
def opPoller.FinalGetURL (env : Env) (p : opPoller) (resp : Option Response) :
    Run (Except Error String × Option Response) :=
  if !p.Done then
    .done (.error ⟨"cannot return a final response from a poller in a non-terminal state"⟩, resp)
  else
    match resp with
    | none => .panicked "nil pointer dereference"
    | some r =>
      match extractJSONValue env r.Body "resourceLocation" with
      | (.error err, b1) => .done (.error err, some { r with Body := b1 })
      | (.ok resLoc, b1) =>
        let r1 : Response := { r with Body := b1 }
        if resLoc ≠ "" then .done (.ok resLoc, some r1)
        else
          match p.req with
          | none => .panicked "nil pointer dereference"
          | some req =>
            if req.Method = MethodPatch ∨ req.Method = MethodPut then
              .done (.ok req.URL, some r1)
            else if req.Method = MethodPost ∧ p.locURL ≠ "" then
              .done (.ok p.locURL, some r1)
            else .done (.ok "", some r1)

def opPoller.Status (p : opPoller) : String :=
  p.status

def locPoller.PollURL (p : locPoller) : String :=
  p.pollURL

def locPoller.Done (p : locPoller) : Bool :=
  p.status != StatusAccepted

/-- Source `locPoller.Update`: returns the strategy as the call leaves it and
the error returned. -/
def locPoller.Update (p : locPoller) (resp : Response) : locPoller × Option Error :=
  let loc := resp.Header.Get headerLocation
  let p1 := if loc ≠ "" then { p with pollURL := loc } else p
  ({ p1 with status := resp.StatusCode }, none)

def locPoller.FinalGetURL (_p : locPoller) (_resp : Option Response) :
    Except Error String :=
  .ok ""

def locPoller.Status (p : locPoller) : String :=
  toString p.status

def nopPoller.PollURL (_p : nopPoller) : String :=
  ""

def nopPoller.Done (_p : nopPoller) : Bool :=
  true

def nopPoller.Update (_p : nopPoller) (_resp : Response) : Option Error :=
  none

def nopPoller.FinalGetURL (_p : nopPoller) (_resp : Option Response) :
    Except Error String :=
  .ok ""

def nopPoller.Status (_p : nopPoller) : String :=
  "succeeded"

/-- Source `lroPoller`: abstracts the differences between concrete poller
types; a value is one of the three implementations. -/
inductive lroPoller where
  | op (p : opPoller) : lroPoller
  | loc (p : locPoller) : lroPoller
  | nop (p : nopPoller) : lroPoller
  deriving DecidableEq, Repr

def lroPoller.Done : lroPoller → Bool
  | .op p => p.Done
  | .loc p => p.Done
  | .nop p => p.Done

def lroPoller.PollURL : lroPoller → String
  | .op p => p.PollURL
  | .loc p => p.PollURL
  | .nop p => p.PollURL

def lroPoller.Update (env : Env) : lroPoller → Response → lroPoller × Response × Option Error
  | .op p, resp =>
    match p.Update env resp with
    | (p1, resp1, err) => (.op p1, resp1, err)
  | .loc p, resp =>
    match p.Update resp with
    | (p1, err) => (.loc p1, resp, err)
  | .nop p, resp => (.nop p, resp, p.Update resp)

def lroPoller.FinalGetURL (env : Env) : lroPoller → Option Response →
    Run (Except Error String × Option Response)
  | .op p, resp => p.FinalGetURL env resp
  | .loc p, resp => .done (p.FinalGetURL resp, resp)
  | .nop p, resp => .done (p.FinalGetURL resp, resp)

/-! ## The poller -/

/-- Source `LROPoller`: the methods called internally in the generated code for
long-running operations. A nil `eu`, `resp` or `err` is `none`. -/
structure LROPoller where
  lro : lroPoller
  pl : Pipeline
  eu : Option ErrorUnmarshaller
  resp : Option Response
  err : Option Error

/-- Source `NewLROPoller`: creates a poller based on the provided initial
response; returns the poller (nil on failure) and the error. -/
def NewLROPoller (resp : Response) (pl : Pipeline) (eu : Option ErrorUnmarshaller) :
    Option LROPoller × Option Error :=
  if !lroStatusCodeValid resp then
    (none, some ⟨"the operation failed or was cancelled"⟩)
  else
    let opLoc := resp.Header.Get headerOperationLocation
    let loc := resp.Header.Get headerLocation
    if opLoc ≠ "" then
      (some {
        lro := .op { req := resp.Request, pollURL := opLoc, locURL := loc, status := "" }
        pl := pl
        eu := eu
        resp := some resp
        err := none }, none)
    else if loc ≠ "" then
      (some {
        lro := .loc { pollURL := loc, status := resp.StatusCode }
        pl := pl
        eu := eu
        resp := some resp
        err := none }, none)
    else
      (some { lro := .nop {}, pl := Pipeline.zero, eu := none, resp := none, err := none },
        none)

/-- Source `LROPoller.Done`: returns true if the LRO has reached a terminal
state. -/
def LROPoller.Done (l : LROPoller) : Bool :=
  if l.err ≠ none then true
  else l.lro.Done

/-- What a method of the poller leaves behind when it returns: the poller, the
requests sent through the pipeline so far, and the returned pair of response
and error. -/
structure Outcome where
  poller : LROPoller
  sent : List HttpRequest
  resp : Option Response
  err : Option Error

/-- Source `LROPoller.Poll`: sends a polling request to the polling endpoint
and returns the response or an error. `sent` lists the requests sent before the
call. -/
def LROPoller.Poll (env : Env) (l : LROPoller) (sent : List HttpRequest) : Run Outcome :=
  if l.Done then
    match l.resp with
    | some r => .done { poller := l, sent := sent, resp := some r, err := none }
    | none => .done { poller := l, sent := sent, resp := none, err := l.err }
  else
    match NewRequest env MethodGet l.lro.PollURL with
    | .error err => .done { poller := l, sent := sent, resp := none, err := some err }
    | .ok req =>
      match l.pl.Do sent req with
      | .error err =>
        .done { poller := l, sent := sent ++ [req], resp := none, err := some err }
      | .ok resp =>
        if !lroStatusCodeValid resp then
          match l.eu with
          | none => .panicked "nil pointer dereference"
          | some eu =>
            .done {
              poller := { l with err := eu resp, resp := none }
              sent := sent ++ [req]
              resp := none
              err := eu resp }
        else
          match l.lro.Update env resp with
          | (lro1, _, some err) =>
            .done {
              poller := { l with lro := lro1 }
              sent := sent ++ [req]
              resp := none
              err := some err }
          | (lro1, resp1, none) =>
            .done {
              poller := { l with lro := lro1 }
              sent := sent ++ [req]
              resp := some resp1
              err := none }

/-- What `FinalResponse` leaves behind when it returns: as `Outcome`, with the
bytes that were decoded into the caller's output shape, if any were. -/
structure FinalOutcome where
  poller : LROPoller
  sent : List HttpRequest
  resp : Option Response
  err : Option Error
  decoded : Option String

/-- The tail of `FinalResponse`, from `ioutil.ReadAll(l.resp.Body)` on. -/
def LROPoller.readFinalBody (env : Env) (l : LROPoller) (sent : List HttpRequest)
    (respType : RespType) : Run FinalOutcome :=
  match l.resp with
  | none => .panicked "nil pointer dereference"
  | some r =>
    match r.Body.ReadAll with
    | (_, some err, b1) =>
      .done {
        poller := { l with resp := some { r with Body := b1 } }
        sent := sent, resp := none, err := some err, decoded := none }
    | (body, none, b1) =>
      let l1 : LROPoller := { l with resp := some { r with Body := b1 } }
      match env.jsonUnmarshal body respType with
      | some err =>
        .done { poller := l1, sent := sent, resp := none, err := some err, decoded := none }
      | none =>
        .done {
          poller := l1, sent := sent, resp := some { r with Body := b1 }
          err := none, decoded := some body }

/-- Source `LROPoller.FinalResponse`: performs a final GET if required and
returns the final http response for the polling operation, unmarshalling the
payload into `respType` (`none` is a nil `respType`). -/
def LROPoller.FinalResponse (env : Env) (l : LROPoller) (sent : List HttpRequest)
    (respType : Option RespType) : Run FinalOutcome :=
  if !l.Done then
    .done {
      poller := l, sent := sent, resp := none
      err := some ⟨"cannot return a final response from a poller in a non-terminal state"⟩
      decoded := none }
  else
    match respType with
    | none =>
      match l.resp with
      | none => .panicked "nil pointer dereference"
      | some r => .done { poller := l, sent := sent, resp := some r, err := none, decoded := none }
    | some ty =>
      match l.lro.FinalGetURL env l.resp with
      | .panicked reason => .panicked reason
      | .done (.error err, resp1) =>
        .done {
          poller := { l with resp := resp1 }, sent := sent, resp := none
          err := some err, decoded := none }
      | .done (.ok u, resp1) =>
        let l1 : LROPoller := { l with resp := resp1 }
        if u ≠ "" then
          match NewRequest env MethodGet u with
          | .error err =>
            .done { poller := l1, sent := sent, resp := none, err := some err, decoded := none }
          | .ok req =>
            match l1.pl.Do sent req with
            | .error err =>
              .done {
                poller := l1, sent := sent ++ [req], resp := none
                err := some err, decoded := none }
            | .ok resp =>
              if !lroStatusCodeValid resp then
                .done {
                  poller := l1, sent := sent ++ [req], resp := none
                  err := some ⟨"TODO"⟩, decoded := none }
              else
                LROPoller.readFinalBody env { l1 with resp := some resp } (sent ++ [req]) ty
        else
          LROPoller.readFinalBody env l1 sent ty

/-- The outcome of the last of `n + 1` successive calls of `Poll`, each on the
poller and the request log the previous call left. -/
def LROPoller.PollTimes (env : Env) : Nat → LROPoller → List HttpRequest → Run Outcome
  | 0, l, sent => l.Poll env sent
  | n + 1, l, sent =>
    match l.Poll env sent with
    | .done o => LROPoller.PollTimes env n o.poller o.sent
    | .panicked reason => .panicked reason

/-- Source `LROPoller.ResumeToken`: returns a token string that can be used
to resume a poller that has not yet reached a terminal state; the body ends in
`panic("NYI")`. -/
def LROPoller.ResumeToken (l : LROPoller) : Run (String × Option Error) :=
  if l.Done then
    .done ("", some ⟨"cannot create a ResumeToken from a poller in a terminal state"⟩)
  else .panicked "NYI"

/-! ## `PollUntilDone` -/

/-- What `PollUntilDone` needs from outside `poller.go` to wait: the package
function `RetryAfter` (the delay a response asks for, a `time.Duration`, zero
when it asks for none) and, for `delay(ctx, d)`, the error `ctx.Err()` when the
context is done before the wait number `k` (counted from zero) of duration `d`
has elapsed. -/
structure Waiting where
  RetryAfter : Option Response → Int
  ctxErr : Nat → Int → Option Error

/-- Source `delay`: waits for `d` or until the context is done, whichever comes
first; `k` is the number of waits made before. -/
def delay (w : Waiting) (k : Nat) (d : Int) : Option Error :=
  w.ctxErr k d

/-- What `PollUntilDone` leaves behind when it returns, as `FinalOutcome`, with
a record of the run: the durations passed to `delay` in order, the responses of
the polls that left the poller not done, the outcome of the last poll, and the
pollers on which `FinalResponse` was invoked. -/
structure DriveOutcome where
  poller : LROPoller
  sent : List HttpRequest
  resp : Option Response
  err : Option Error
  decoded : Option String
  delays : List Int
  waitedOn : List (Option Response)
  lastPoll : Option Outcome
  finals : List LROPoller

/-- The loop `for { ... }` of `PollUntilDone` followed by the call of
`FinalResponse`, run for at most `fuel` polls (`none` when they do not
suffice). `delays` and `waitedOn` hold the record of the run so far. -/
def LROPoller.pollLoop (w : Waiting) (env : Env) (freq : Int) (respType : Option RespType) :
    Nat → LROPoller → List HttpRequest → List Int → List (Option Response) →
      Option (Run DriveOutcome)
  | 0, _, _, _, _ => none
  | fuel + 1, l, sent, delays, waitedOn =>
    match l.Poll env sent with
    | .panicked reason => some (.panicked reason)
    | .done o =>
      match o.err with
      | some err =>
        some (.done {
          poller := o.poller, sent := o.sent, resp := none, err := some err
          decoded := none, delays := delays, waitedOn := waitedOn
          lastPoll := some o, finals := [] })
      | none =>
        if o.poller.Done then
          match o.poller.FinalResponse env o.sent respType with
          | .panicked reason => some (.panicked reason)
          | .done f =>
            some (.done {
              poller := f.poller, sent := f.sent, resp := f.resp, err := f.err
              decoded := f.decoded, delays := delays, waitedOn := waitedOn
              lastPoll := some o, finals := [o.poller] })
        else
          let d := if w.RetryAfter o.resp > 0 then w.RetryAfter o.resp else freq
          match delay w delays.length d with
          | some err =>
            some (.done {
              poller := o.poller, sent := o.sent, resp := none, err := some err
              decoded := none, delays := delays ++ [d], waitedOn := waitedOn ++ [o.resp]
              lastPoll := some o, finals := [] })
          | none =>
            LROPoller.pollLoop w env freq respType fuel o.poller o.sent (delays ++ [d])
              (waitedOn ++ [o.resp])

/-- Source `LROPoller.PollUntilDone`: handles the entire span of the polling
operation until a terminal state is reached, then returns the final response.
Logging is left out. -/
def LROPoller.PollUntilDone (w : Waiting) (env : Env) (fuel : Nat) (l : LROPoller)
    (sent : List HttpRequest) (freq : Int) (respType : Option RespType) :
    Option (Run DriveOutcome) :=
  match l.resp with
  | some r =>
    if w.RetryAfter (some r) > 0 then
      match delay w 0 (w.RetryAfter (some r)) with
      | some err =>
        some (.done {
          poller := l, sent := sent, resp := none, err := some err, decoded := none
          delays := [w.RetryAfter (some r)], waitedOn := [], lastPoll := none, finals := [] })
      | none =>
        LROPoller.pollLoop w env freq respType fuel l sent [w.RetryAfter (some r)] []
    else LROPoller.pollLoop w env freq respType fuel l sent [] []
  | none => LROPoller.pollLoop w env freq respType fuel l sent [] []

end azcore

/-! ## The recording sanitizer (`sdk/internal/testframework/recording_sanitizer.go`) -/

namespace testframework

/-- A Go map from header names to their values (`http.Header` indexed
directly, without canonicalisation): the value stored under each key, if
any. -/
abbrev HeaderMap := String → Option (List String)

/-- The assignment `header[name] = value`. -/
def HeaderMap.set (header : HeaderMap) (name : String) (value : List String) : HeaderMap :=
  fun k => if k = name then some value else header k

def SanitizedValue : String := "sanitized"

def sanitizedValueSlice : List String := [SanitizedValue]

/-- Source `RecordingSanitizer`, with the field the header sanitizer reads: the
keys of the map `headersToSanitize`, in the order a `range` visits them. -/
structure RecordingSanitizer where
  headersToSanitize : List String

/-- Source `DefaultSanitizer`: the default sanitizer sanitizes the
Authorization header. -/
def DefaultSanitizer : RecordingSanitizer :=
  { headersToSanitize := ["Authorization"] }

/-- Source `RecordingSanitizer.AddSanitizedHeaders`: adds the supplied header
names to the headers to be sanitized. -/
def RecordingSanitizer.AddSanitizedHeaders (s : RecordingSanitizer) (headers : List String) :
    RecordingSanitizer :=
  headers.foldl
    (fun s headerName =>
      if headerName ∈ s.headersToSanitize then s
      else { s with headersToSanitize := s.headersToSanitize ++ [headerName] })
    s

/-- Source `RecordingSanitizer.sanitizeHeaders`; returns the map as the call
leaves it. -/
def RecordingSanitizer.sanitizeHeaders (s : RecordingSanitizer) (header : HeaderMap) :
    HeaderMap :=
  s.headersToSanitize.foldl
    (fun header headerName =>
      match header headerName with
      | some _ => header.set headerName sanitizedValueSlice
      | none => header)
    header

end testframework

namespace azcore

/-! ## Sample values -/

/-- A decoder that accepts no body, for evaluating paths that decode nothing. -/
def Env.strict : Env :=
  { jsonObject := fun _ => .error ⟨"unexpected end of JSON input"⟩
    jsonUnmarshal := fun _ _ => some ⟨"unexpected end of JSON input"⟩
    endpointError := fun _ => none }

/-- A pipeline that answers every request with an empty `404`. -/
def Pipeline.notFound : Pipeline :=
  { Do := fun _ req =>
      .ok { StatusCode := 404, Header := [], Body := Body.ofBytes "", Request := some req } }

/-- An error unmarshaller reporting one fixed error. -/
def sampleUnmarshaller : ErrorUnmarshaller :=
  fun _ => some ⟨"operation failed"⟩

/-- An initiating response with the given status code and headers, answering a
`PUT` of a resource. -/
def sampleResponse (code : Int) (h : Header) : Response :=
  { StatusCode := code
    Header := h
    Body := Body.ofBytes ""
    Request := some { Method := "PUT", URL := "https://example.org/res/1" } }

/-- A Location-strategy poller that is still in progress, as `NewLROPoller`
builds it from a `202` response with a `Location` header. -/
def samplePending : LROPoller :=
  { lro := .loc { pollURL := "/op/2", status := 202 }
    pl := Pipeline.notFound
    eu := some sampleUnmarshaller
    resp := some (sampleResponse 202 [("Location", ["/op/2"])])
    err := none }

/-- The poller `samplePending` after a poll answered with `404`. -/
def sampleFailed : LROPoller :=
  { samplePending with err := some ⟨"operation failed"⟩, resp := none }

/-- The poll body `{"status":"Running"}`. -/
def bodyRunning : String := "\x7b\"status\":\"Running\"\x7d"

/-- The poll body `{"status":"Succeeded"}`. -/
def bodySucceeded : String := "\x7b\"status\":\"Succeeded\"\x7d"

/-- The poll body `{"status":"Succeeded","resourceLocation":"/res/42"}`. -/
def bodySucceededAt : String :=
  "\x7b\"status\":\"Succeeded\",\"resourceLocation\":\"/res/42\"\x7d"

/-- The poll body `{"status":"Succeeded","resourceLocation":""}`. -/
def bodySucceededNowhere : String :=
  "\x7b\"status\":\"Succeeded\",\"resourceLocation\":\"\"\x7d"

/-- What `encoding/json` decodes the sample bodies into; the empty object and
`null` decode to a map without entries, and any other input, the empty input
included, is rejected. -/
def sampleDecode (body : String) : Except Error (List (String × JsonValue)) :=
  if body = bodyRunning then .ok [("status", .string "Running")]
  else if body = bodySucceeded then .ok [("status", .string "Succeeded")]
  else if body = bodySucceededAt then
    .ok [("status", .string "Succeeded"), ("resourceLocation", .string "/res/42")]
  else if body = bodySucceededNowhere then
    .ok [("status", .string "Succeeded"), ("resourceLocation", .string "")]
  else if body = "\x7b\x7d" ∨ body = "null" then .ok []
  else if body = "" then .error ⟨"unexpected end of JSON input"⟩
  else .error ⟨"invalid character looking for beginning of value"⟩

/-- A decoder for the sample bodies; every endpoint is accepted. -/
def Env.sample : Env :=
  { jsonObject := sampleDecode
    jsonUnmarshal := fun body _ =>
      match sampleDecode body with
      | .ok _ => none
      | .error err => some err
    endpointError := fun _ => none }

/-- A pipeline whose transport fails on every request. -/
def Pipeline.down : Pipeline :=
  { Do := fun _ _ => .error ⟨"dial tcp: connection refused"⟩ }

/-- A pipeline that answers every request with `200` and `bodySucceededAt`. -/
def Pipeline.succeeded : Pipeline :=
  { Do := fun _ req =>
      .ok {
        StatusCode := 200
        Header := []
        Body := Body.ofBytes bodySucceededAt
        Request := some req } }

/-- The poller `samplePending` behind a transport that is down. -/
def sampleOffline : LROPoller :=
  { samplePending with pl := Pipeline.down }

/-- The poller `samplePending` behind a transport that answers `200`. -/
def sampleLocPolling : LROPoller :=
  { samplePending with pl := Pipeline.succeeded }

/-- A poll response `200` with the given body and headers. -/
def samplePollResponse (body : String) (h : Header) : Response :=
  { StatusCode := 200
    Header := h
    Body := Body.ofBytes body
    Request := some { Method := "GET", URL := "/op/1" } }

/-- An Operation-Location strategy for a `PUT`, with the given status. -/
def sampleOp (status : String) : opPoller :=
  { req := some { Method := "PUT", URL := "https://example.org/res/1" }
    pollURL := "/op/1"
    locURL := ""
    status := status }

/-- A Location-strategy poller whose last poll was answered with `200`, holding
a cached response. -/
def sampleLocDone : LROPoller :=
  { lro := .loc { pollURL := "/op/2", status := 200 }
    pl := Pipeline.notFound
    eu := some sampleUnmarshaller
    resp := some (sampleResponse 202 [("Location", ["/op/2"])])
    err := none }

/-- A pipeline that replays recorded responses: the request number `k`
(counted from zero) is answered with the response number `k`, and the transport
fails once the record is used up. -/
def Pipeline.replay (record : List Response) : Pipeline :=
  { Do := fun sent _ =>
      match record[sent.length]? with
      | some r => .ok r
      | none => .error ⟨"no response recorded"⟩ }

/-- An error unmarshaller that finds no error in the response. -/
def silentUnmarshaller : ErrorUnmarshaller :=
  fun _ => none

/-- The poller `samplePending` with an unmarshaller that returns nil. -/
def sampleSilent : LROPoller :=
  { samplePending with eu := some silentUnmarshaller }

/-- An Operation-Location poller that is still in progress, behind a transport
that answers `200` without a body. -/
def sampleOpPending : LROPoller :=
  { lro := .op (sampleOp "")
    pl := Pipeline.replay [samplePollResponse "" []]
    eu := some sampleUnmarshaller
    resp := some (sampleResponse 201 [("Operation-Location", ["/op/1"])])
    err := none }

/-- A `RetryAfter` that reads five seconds from a `Retry-After: 5` header and
no delay otherwise, with a context that is never done. -/
def Waiting.sample : Waiting :=
  { RetryAfter := fun resp =>
      match resp with
      | some r => if r.Header.Get "Retry-After" = "5" then 5000000000 else 0
      | none => 0
    ctxErr := fun _ _ => none }

/-- As `Waiting.sample`, with a context that is done during the second wait
when that wait is one of thirty seconds. -/
def Waiting.deadline : Waiting :=
  { RetryAfter := Waiting.sample.RetryAfter
    ctxErr := fun k d =>
      if k = 1 ∧ d = 30000000000 then some ⟨"context deadline exceeded"⟩ else none }

/-- The initiating response of the scenarios on the Operation-Location
strategy: `201` to a `PUT`, with `Operation-Location: /op/1` and no
`Location`. -/
def scenarioPut : Response :=
  sampleResponse 201 [("Operation-Location", ["/op/1"])]

/-- The initiating response of the scenarios on the Location strategy: `202`
to a `POST`, with `Location: /op/2`. -/
def scenarioPost : Response :=
  { StatusCode := 202
    Header := [("Location", ["/op/2"])]
    Body := Body.ofBytes ""
    Request := some { Method := "POST", URL := "https://example.org/res/2/start" } }

/-- A poll response of the Location scenario: the given status code and body,
and a `Retry-After: 5` header when asked for. -/
def scenarioPoll (code : Int) (body : String) (retry : Bool) : Response :=
  { StatusCode := code
    Header := if retry then [("Retry-After", ["5"])] else []
    Body := Body.ofBytes body
    Request := some { Method := "GET", URL := "/op/2" } }

/-- The Location-strategy poller of the scenario, behind a transport that
answers `202` with `Retry-After: 5`, then `202`, then `200` with a body. -/
def sampleDrive : LROPoller :=
  { lro := .loc { pollURL := "/op/2", status := 202 }
    pl := Pipeline.replay
      [scenarioPoll 202 "" true, scenarioPoll 202 "" false,
        scenarioPoll 200 bodySucceeded false]
    eu := some sampleUnmarshaller
    resp := some scenarioPost
    err := none }

/-- The body `{"id":"42","resourceLocation":"https://example.org/res/42"}` of
an initiating response. -/
def bodyCreatedAt : String :=
  "\x7b\"id\":\"42\",\"resourceLocation\":\"https://example.org/res/42\"\x7d"

/-- A decoder for `bodyCreatedAt` and the sample bodies; an endpoint is accepted
when it is an `https` URL. -/
def Env.hosted : Env :=
  { jsonObject := fun body =>
      if body = bodyCreatedAt then
        .ok [("id", .string "42"), ("resourceLocation", .string "https://example.org/res/42")]
      else sampleDecode body
    jsonUnmarshal := fun body _ =>
      if body = bodyCreatedAt then none
      else
        match sampleDecode body with
        | .ok _ => none
        | .error err => some err
    endpointError := fun u =>
      if "https://".data.isPrefixOf u.data then none
      else some ⟨"no Host in request URL"⟩ }

/-- The initiating response of the scenario of a failing final GET: `201` to a
`PUT`, with `Operation-Location: https://example.org/op/1` and the body
`bodyCreatedAt`. -/
def scenarioCreated : Response :=
  { StatusCode := 201
    Header := [("Operation-Location", ["https://example.org/op/1"])]
    Body := Body.ofBytes bodyCreatedAt
    Request := some { Method := "PUT", URL := "https://example.org/res/1" } }

/-- The poll response of that scenario: `200` with `{"status":"Succeeded"}`. -/
def scenarioPolled : Response :=
  { StatusCode := 200
    Header := []
    Body := Body.ofBytes bodySucceeded
    Request := some { Method := "GET", URL := "https://example.org/op/1" } }

/-- The response `404` of that scenario to the final GET. -/
def scenarioGone : Response :=
  { StatusCode := 404
    Header := []
    Body := Body.ofBytes ""
    Request := some { Method := "GET", URL := "https://example.org/res/42" } }

/-! ## Notions used to state the properties -/

/-- The delay `PollUntilDone` is to wait after a poll that returned `resp` and
left the poller not done: the response's `Retry-After` when it is positive,
and the caller's interval `freq` otherwise. -/
def nextDelay (w : Waiting) (freq : Int) (resp : Option Response) : Int :=
  if w.RetryAfter resp > 0 then w.RetryAfter resp else freq

/-- The delay `PollUntilDone` waits before its first poll: the `Retry-After` of
the cached response, when there is one and it is positive. -/
def initialDelay (w : Waiting) (l : LROPoller) : List Int :=
  match l.resp with
  | some r => if w.RetryAfter (some r) > 0 then [w.RetryAfter (some r)] else []
  | none => []

/-- The status codes the classifier accepts. -/
def accepted (code : Int) : Prop :=
  code = 200 ∨ code = 201 ∨ code = 202 ∨ code = 204

instance (code : Int) : Decidable (accepted code) := by
  unfold accepted
  infer_instance

/-- Unicode simple case folding of a rune, on the folding orbits of the ASCII
runes: an upper-case ASCII letter, the long s and the Kelvin sign fold to the
lower-case ASCII letter of their orbit; other runes are left as they are. -/
def caseFold (r : Nat) : Nat :=
  if 0x41 ≤ r ∧ r ≤ 0x5A then r + 0x20
  else if r = 0x17F then 0x73
  else if r = 0x212A then 0x6B
  else r

/-- Whether a status string equals `word` once every rune is case-folded. -/
def equalIgnoringCase (s word : String) : Prop :=
  (runes s).map caseFold = runes word

instance (s word : String) : Decidable (equalIgnoringCase s word) := by
  unfold equalIgnoringCase
  infer_instance

/-- Whether each of the first `n` successive calls of `Poll`, starting from the
poller `l` and the request log `sent`, returns without an error and leaves the
poller not done. -/
def LROPoller.pendingFor (env : Env) : Nat → LROPoller → List HttpRequest → Bool
  | 0, _, _ => true
  | n + 1, l, sent =>
    match l.Poll env sent with
    | .done o =>
      o.err.isNone && (!o.poller.Done && LROPoller.pendingFor env n o.poller o.sent)
    | .panicked _ => false

/-- The responses returned by the first `n` successive calls of `Poll`, in
order. -/
def LROPoller.polledResps (env : Env) :
    Nat → LROPoller → List HttpRequest → List (Option Response)
  | 0, _, _ => []
  | n + 1, l, sent =>
    match l.Poll env sent with
    | .done o => o.resp :: LROPoller.polledResps env n o.poller o.sent
    | .panicked _ => []

/-- The poller and the request log that `n` successive calls of `Poll` leave. -/
def LROPoller.afterPolls (env : Env) :
    Nat → LROPoller → List HttpRequest → LROPoller × List HttpRequest
  | 0, l, sent => (l, sent)
  | n + 1, l, sent =>
    match l.Poll env sent with
    | .done o => LROPoller.afterPolls env n o.poller o.sent
    | .panicked _ => (l, sent)

/-- The waits `PollUntilDone` is to have made once `n` polls have each left the
poller not done: the initial delay, and then after each poll the delay
`nextDelay` of that poll's response. -/
def expectedDelays (w : Waiting) (env : Env) (freq : Int) (l : LROPoller)
    (sent : List HttpRequest) (n : Nat) : List Int :=
  initialDelay w l ++ (l.polledResps env n sent).map (nextDelay w freq)

/-! ## The response classifier -/

lemma lroStatusCodeValid_true (resp : Response) :
    lroStatusCodeValid resp = true ↔ accepted resp.StatusCode := by
  simp [lroStatusCodeValid, Response.HasStatusCode, StatusOK, StatusAccepted,
    StatusCreated, StatusNoContent, accepted]
  tauto

lemma lroStatusCodeValid_false (resp : Response) :
    lroStatusCodeValid resp = false ↔ ¬ accepted resp.StatusCode := by
  rw [← Bool.not_eq_true, lroStatusCodeValid_true]

/-- C1: `lroStatusCodeValid` returns true exactly when the response's status
code is one of 200, 201, 202, 204. -/
theorem lroStatusCodeValid_iff (resp : Response) :
    lroStatusCodeValid resp = true ↔
      resp.StatusCode = 200 ∨ resp.StatusCode = 201 ∨
        resp.StatusCode = 202 ∨ resp.StatusCode = 204 :=
  lroStatusCodeValid_true resp

/-! ## Construction -/

/-- C2: an initiating response whose status code is none of 200, 201, 202, 204
makes `NewLROPoller` return no poller and an error, whatever its headers. -/
theorem NewLROPoller_rejected (resp : Response) (pl : Pipeline)
    (eu : Option ErrorUnmarshaller)
    (h : ¬ (resp.StatusCode = 200 ∨ resp.StatusCode = 201 ∨
      resp.StatusCode = 202 ∨ resp.StatusCode = 204)) :
    NewLROPoller resp pl eu =
      (none, some ⟨"the operation failed or was cancelled"⟩) := by
  have hv : lroStatusCodeValid resp = false := (lroStatusCodeValid_false resp).2 h
  simp [NewLROPoller, hv]

/-- C2 at a `404` response that carries both polling headers. -/
theorem NewLROPoller_rejected_witness :
    NewLROPoller
        (sampleResponse 404 [("Operation-Location", ["/op/1"]), ("Location", ["/loc/1"])])
        Pipeline.notFound (some sampleUnmarshaller) =
      (none, some ⟨"the operation failed or was cancelled"⟩) :=
  NewLROPoller_rejected _ _ _ (by decide)

/-- C3: an accepted initiating response with a non-empty `Operation-Location`
header and a non-empty `Location` header yields the Operation-Location
strategy, polling the `Operation-Location` value, with the `Location` value as
fallback URL and the response's request as captured request. -/
theorem NewLROPoller_prefers_operationLocation (resp : Response) (pl : Pipeline)
    (eu : Option ErrorUnmarshaller)
    (hcode : resp.StatusCode = 200 ∨ resp.StatusCode = 201 ∨
      resp.StatusCode = 202 ∨ resp.StatusCode = 204)
    (hop : resp.Header.Get "Operation-Location" ≠ "")
    (_hloc : resp.Header.Get "Location" ≠ "") :
    NewLROPoller resp pl eu =
      (some {
        lro := .op {
          req := resp.Request
          pollURL := resp.Header.Get "Operation-Location"
          locURL := resp.Header.Get "Location"
          status := "" }
        pl := pl
        eu := eu
        resp := some resp
        err := none }, none) := by
  have hv : lroStatusCodeValid resp = true := (lroStatusCodeValid_true resp).2 hcode
  simp [NewLROPoller, hv, headerOperationLocation, headerLocation, hop]

/-- C3 at a `201` response carrying both headers. -/
theorem NewLROPoller_prefers_operationLocation_witness :
    NewLROPoller
        (sampleResponse 201 [("Location", ["/loc/1"]), ("Operation-Location", ["/op/1"])])
        Pipeline.notFound (some sampleUnmarshaller) =
      (some {
        lro := .op {
          req := some { Method := "PUT", URL := "https://example.org/res/1" }
          pollURL := "/op/1"
          locURL := "/loc/1"
          status := "" }
        pl := Pipeline.notFound
        eu := some sampleUnmarshaller
        resp := some
          (sampleResponse 201 [("Location", ["/loc/1"]), ("Operation-Location", ["/op/1"])])
        err := none }, none) :=
  NewLROPoller_prefers_operationLocation _ _ _ (by decide) (by decide) (by decide)

/-- C4: an accepted initiating response whose `Operation-Location` header is
empty or absent and whose `Location` header is non-empty yields the Location
strategy, polling the `Location` value and storing the response's status
code. -/
theorem NewLROPoller_location (resp : Response) (pl : Pipeline)
    (eu : Option ErrorUnmarshaller)
    (hcode : resp.StatusCode = 200 ∨ resp.StatusCode = 201 ∨
      resp.StatusCode = 202 ∨ resp.StatusCode = 204)
    (hop : resp.Header.Get "Operation-Location" = "")
    (hloc : resp.Header.Get "Location" ≠ "") :
    NewLROPoller resp pl eu =
      (some {
        lro := .loc { pollURL := resp.Header.Get "Location", status := resp.StatusCode }
        pl := pl
        eu := eu
        resp := some resp
        err := none }, none) := by
  have hv : lroStatusCodeValid resp = true := (lroStatusCodeValid_true resp).2 hcode
  simp [NewLROPoller, hv, headerOperationLocation, headerLocation, hop, hloc]

/-- C4 at a `202` response whose `Operation-Location` header has an empty
value. -/
theorem NewLROPoller_location_witness :
    NewLROPoller
        (sampleResponse 202 [("Operation-Location", [""]), ("Location", ["/op/2"])])
        Pipeline.notFound (some sampleUnmarshaller) =
      (some {
        lro := .loc { pollURL := "/op/2", status := 202 }
        pl := Pipeline.notFound
        eu := some sampleUnmarshaller
        resp := some
          (sampleResponse 202 [("Operation-Location", [""]), ("Location", ["/op/2"])])
        err := none }, none) :=
  NewLROPoller_location _ _ _ (by decide) (by decide) (by decide)

/-- C5: an accepted initiating response with neither an `Operation-Location`
nor a `Location` header yields the no-op strategy, and `Done` is true on the
poller as constructed. -/
theorem NewLROPoller_nop_done (resp : Response) (pl : Pipeline)
    (eu : Option ErrorUnmarshaller)
    (hcode : resp.StatusCode = 200 ∨ resp.StatusCode = 201 ∨
      resp.StatusCode = 202 ∨ resp.StatusCode = 204)
    (hop : resp.Header.Get "Operation-Location" = "")
    (hloc : resp.Header.Get "Location" = "") :
    ∃ l : LROPoller, NewLROPoller resp pl eu = (some l, none) ∧
      l.lro = .nop {} ∧ l.Done = true := by
  have hv : lroStatusCodeValid resp = true := (lroStatusCodeValid_true resp).2 hcode
  refine ⟨{ lro := .nop {}, pl := Pipeline.zero, eu := none, resp := none, err := none },
    ?_, rfl, ?_⟩
  · simp [NewLROPoller, hv, headerOperationLocation, headerLocation, hop, hloc]
  · simp [LROPoller.Done, lroPoller.Done, nopPoller.Done]

/-- C5 at a `200` response without headers. -/
theorem NewLROPoller_nop_done_witness :
    ∃ l : LROPoller,
      NewLROPoller (sampleResponse 200 []) Pipeline.notFound (some sampleUnmarshaller) =
        (some l, none) ∧ l.lro = .nop {} ∧ l.Done = true :=
  NewLROPoller_nop_done _ _ _ (by decide) (by decide) (by decide)

/-! ## Completion detection -/

/-- C7: `Done` on a poller is true exactly when a terminal error is recorded or
the strategy's `Done` is true. -/
theorem LROPoller_Done_iff (l : LROPoller) :
    l.Done = true ↔ l.err ≠ none ∨ l.lro.Done = true := by
  unfold LROPoller.Done
  split <;> simp_all

/-- C9: after `Update` of the Location strategy with a poll response, `Done` is
true exactly when that response's status code is not 202, whatever the state
before and whatever the response's body and headers; `Update` returns no error,
also through the strategy interface. -/
theorem locPoller_Update_Done (env : Env) (p : locPoller) (resp : Response) :
    ((p.Update resp).1.Done = true ↔ resp.StatusCode ≠ 202) ∧
      (p.Update resp).2 = none ∧
      ((lroPoller.Update env (.loc p) resp).1.Done = true ↔ resp.StatusCode ≠ 202) ∧
      (lroPoller.Update env (.loc p) resp).2.2 = none := by
  simp [locPoller.Update, locPoller.Done, lroPoller.Update, lroPoller.Done, StatusAccepted]


lemma SimpleFold_lower (t : Nat) (h1 : 0x61 ≤ t) (h2 : t ≤ 0x7A) (hk : t ≠ 0x6B)
    (hs : t ≠ 0x73) : SimpleFold t = t - 0x20 := by
  unfold SimpleFold
  split_ifs <;> omega

lemma SimpleFold_upper (u : Nat) (h1 : 0x41 ≤ u) (h2 : u ≤ 0x5A) :
    SimpleFold u = u + 0x20 := by
  unfold SimpleFold
  split_ifs <;> omega

lemma foldEqualRune_ascii (sr tr : Nat) (h1 : 0x61 ≤ tr) (h2 : tr ≤ 0x7A)
    (hs : sr < 0x80) : foldEqualRune sr tr = true ↔ caseFold sr = tr := by
  unfold foldEqualRune caseFold
  simp only [RuneSelf]
  split_ifs <;> simp only [decide_eq_true_eq, true_iff] <;> omega

lemma foldSearch_three (lo hi r : Nat) :
    foldSearch 3 lo hi r =
      if r ≠ lo ∧ r < hi then
        if SimpleFold r ≠ lo ∧ SimpleFold r < hi then
          if SimpleFold (SimpleFold r) ≠ lo ∧ SimpleFold (SimpleFold r) < hi then
            SimpleFold (SimpleFold (SimpleFold r))
          else SimpleFold (SimpleFold r)
        else SimpleFold r
      else r := rfl

lemma SimpleFold_fixed (r : Nat) (h : ¬ (0x41 ≤ r ∧ r ≤ 0x5A)) (h2 : ¬ (0x61 ≤ r ∧ r ≤ 0x7A))
    (hk : r ≠ 0x212A) (hs : r ≠ 0x17F) : SimpleFold r = r := by
  unfold SimpleFold
  split_ifs <;> omega

/-- Every orbit of `SimpleFold` has at most three runes. -/
lemma SimpleFold_orbit (r : Nat) :
    SimpleFold r = r ∨ SimpleFold (SimpleFold r) = r ∨
      SimpleFold (SimpleFold (SimpleFold r)) = r := by
  by_cases hK : r = 0x212A
  · subst hK; right; right; decide
  by_cases hS : r = 0x17F
  · subst hS; right; right; decide
  by_cases hk : r = 0x6B
  · subst hk; right; right; decide
  by_cases hs : r = 0x73
  · subst hs; right; right; decide
  by_cases hk2 : r = 0x4B
  · subst hk2; right; right; decide
  by_cases hs2 : r = 0x53
  · subst hs2; right; right; decide
  by_cases hu : 0x41 ≤ r ∧ r ≤ 0x5A
  · right; left
    rw [SimpleFold_upper r hu.1 hu.2,
      SimpleFold_lower (r + 0x20) (by omega) (by omega) (by omega) (by omega)]
    omega
  by_cases hl : 0x61 ≤ r ∧ r ≤ 0x7A
  · right; left
    rw [SimpleFold_lower r hl.1 hl.2 hk hs, SimpleFold_upper (r - 0x20) (by omega) (by omega)]
    omega
  · left
    exact SimpleFold_fixed r hu hl hK hS

/-- Three tests are enough: the inner loop of `EqualFold` has left its
condition when `foldSearch 3` returns. -/
lemma foldSearch_exits (lo hi : Nat) :
    ¬ (foldSearch 3 lo hi (SimpleFold lo) ≠ lo ∧ foldSearch 3 lo hi (SimpleFold lo) < hi) := by
  rw [foldSearch_three]
  rcases SimpleFold_orbit lo with h | h | h
  · rw [h]; split_ifs <;> simp_all
  · rw [h]; split_ifs <;> simp_all
  · rw [h]; split_ifs <;> simp_all

lemma foldSearch_succ_of_exit (n lo hi r : Nat)
    (h : ¬ (foldSearch n lo hi r ≠ lo ∧ foldSearch n lo hi r < hi)) :
    foldSearch (n + 1) lo hi r = foldSearch n lo hi r := by
  induction n generalizing r with
  | zero =>
    simp only [foldSearch] at h ⊢
    rw [if_neg h]
  | succ n ih =>
    by_cases c : r ≠ lo ∧ r < hi
    · have e : foldSearch (n + 1) lo hi r = foldSearch n lo hi (SimpleFold r) := by
        simp only [foldSearch]; rw [if_pos c]
      have e2 : foldSearch (n + 1 + 1) lo hi r = foldSearch (n + 1) lo hi (SimpleFold r) := by
        simp only [foldSearch]; rw [if_pos c]
      rw [e] at h
      rw [e2, e, ih _ h]
    · have e : foldSearch (n + 1) lo hi r = r := by
        simp only [foldSearch]; rw [if_neg c]
      have e2 : foldSearch (n + 1 + 1) lo hi r = r := by
        simp only [foldSearch]; rw [if_neg c]
      rw [e2, e]

/-- More fuel than three tests does not change what the inner loop returns. -/
lemma foldSearch_fuel (n lo hi : Nat) :
    foldSearch (3 + n) lo hi (SimpleFold lo) = foldSearch 3 lo hi (SimpleFold lo) := by
  induction n with
  | zero => rfl
  | succ n ih =>
    have h := foldSearch_exits lo hi
    rw [← ih] at h
    rw [← Nat.add_assoc, foldSearch_succ_of_exit _ _ _ _ h, ih]

lemma foldEqualRune_wide (sr tr : Nat) (h1 : 0x61 ≤ tr) (h2 : tr ≤ 0x7A)
    (hs : 0x80 ≤ sr) : foldEqualRune sr tr = true ↔ caseFold sr = tr := by
  have hne : ¬ tr = sr := by omega
  have hlt : tr < sr := by omega
  have hhi : ¬ sr < 0x80 := by omega
  have hfold : caseFold sr = tr ↔ (sr = 0x17F ∧ tr = 0x73) ∨ (sr = 0x212A ∧ tr = 0x6B) := by
    unfold caseFold
    split_ifs <;> omega
  unfold foldEqualRune
  simp only [RuneSelf, hne, hlt, hhi, if_true, if_false, decide_eq_true_eq]
  rw [hfold, foldSearch_three]
  by_cases hk : tr = 0x6B
  · subst hk
    have a1 : SimpleFold 0x6B = 0x212A := by decide
    have a2 : SimpleFold 0x212A = 0x4B := by decide
    have a3 : SimpleFold 0x4B = 0x6B := by decide
    rw [a1, a2, a3]
    split_ifs <;> omega
  · by_cases hS : tr = 0x73
    · subst hS
      have a1 : SimpleFold 0x73 = 0x17F := by decide
      have a2 : SimpleFold 0x17F = 0x53 := by decide
      have a3 : SimpleFold 0x53 = 0x73 := by decide
      rw [a1, a2, a3]
      split_ifs <;> omega
    · have e1 : SimpleFold tr = tr - 0x20 := SimpleFold_lower tr h1 h2 hk hS
      have e2 : SimpleFold (tr - 0x20) = tr := by
        rw [SimpleFold_upper (tr - 0x20) (by omega) (by omega)]
        omega
      rw [e1, e2, e1]
      split_ifs <;> omega

lemma foldEqualRune_lower (sr tr : Nat) (h1 : 0x61 ≤ tr) (h2 : tr ≤ 0x7A) :
    foldEqualRune sr tr = true ↔ caseFold sr = tr := by
  by_cases hs : sr < 0x80
  · exact foldEqualRune_ascii sr tr h1 h2 hs
  · exact foldEqualRune_wide sr tr h1 h2 (by omega)

lemma EqualFoldRunes_lower (s t : List Nat) (ht : ∀ c ∈ t, 0x61 ≤ c ∧ c ≤ 0x7A) :
    EqualFoldRunes s t = true ↔ s.map caseFold = t := by
  induction s generalizing t with
  | nil =>
    cases t <;> simp [EqualFoldRunes]
  | cons sr s ih =>
    cases t with
    | nil => simp [EqualFoldRunes]
    | cons tr t =>
      have hc := ht tr (List.mem_cons_self _ _)
      have ht2 : ∀ c ∈ t, 0x61 ≤ c ∧ c ≤ 0x7A := fun c hc2 => ht c (List.mem_cons_of_mem _ hc2)
      simp only [EqualFoldRunes, List.map_cons, List.cons.injEq]
      rw [← foldEqualRune_lower sr tr hc.1 hc.2, ← ih t ht2]
      cases foldEqualRune sr tr <;> simp

lemma EqualFold_lower (s word : String) (hw : ∀ c ∈ runes word, 0x61 ≤ c ∧ c ≤ 0x7A) :
    EqualFold s word = true ↔ equalIgnoringCase s word :=
  EqualFoldRunes_lower (runes s) (runes word) hw

/-- C8: `Done` of the Operation-Location strategy is true exactly when the
status, compared case-insensitively (rune by rune under Unicode simple case
folding), equals "succeeded", "failed" or "cancelled"; the empty status and
"canceled" are not terminal, and "Succeeded", "SUCCEEDED" and "succeeded" are. -/
theorem opPoller_Done_iff (p : opPoller) :
    (p.Done = true ↔
      equalIgnoringCase p.status "succeeded" ∨ equalIgnoringCase p.status "failed" ∨
        equalIgnoringCase p.status "cancelled") ∧
    opPoller.Done { p with status := "" } = false ∧
    opPoller.Done { p with status := "canceled" } = false ∧
    opPoller.Done { p with status := "Succeeded" } = true ∧
    opPoller.Done { p with status := "SUCCEEDED" } = true ∧
    opPoller.Done { p with status := "succeeded" } = true := by
  refine ⟨?_, ?_, ?_, ?_, ?_, ?_⟩
  rotate_left
  all_goals first | (simp only [opPoller.Done]; decide) | skip
  unfold opPoller.Done
  rw [Bool.or_eq_true, Bool.or_eq_true, EqualFold_lower _ _ (by decide),
    EqualFold_lower _ _ (by decide), EqualFold_lower _ _ (by decide)]
  tauto

/-! ## Synchronous completion and `FinalResponse` -/

/-- C6: on the poller `NewLROPoller` builds from a `200` response without
polling headers no response is cached, and `FinalResponse` panics on the nil
cached response instead of returning the initiating response, with or without
an output shape. -/
theorem FinalResponse_nop_panics :
    ∃ l : LROPoller,
      NewLROPoller (sampleResponse 200 []) Pipeline.notFound (some sampleUnmarshaller) =
        (some l, none) ∧
      l.resp = none ∧ l.Done = true ∧
      (∀ (env : Env) (sent : List HttpRequest) (respType : Option RespType),
        l.FinalResponse env sent respType = .panicked "nil pointer dereference") := by
  refine ⟨{ lro := .nop {}, pl := Pipeline.zero, eu := none, resp := none, err := none },
    ?_, rfl, rfl, ?_⟩
  · rfl
  · intro env sent respType
    cases respType <;> rfl

/-! ## `Poll` on a terminal poller -/

lemma Poll_of_Done (env : Env) (l : LROPoller) (sent : List HttpRequest)
    (h : l.Done = true) :
    l.Poll env sent =
      .done {
        poller := l
        sent := sent
        resp := l.resp
        err := if l.resp = none then l.err else none } := by
  unfold LROPoller.Poll
  rw [if_pos h]
  cases hr : l.resp <;> simp

lemma PollTimes_of_Done (env : Env) (l : LROPoller) (sent : List HttpRequest)
    (h : l.Done = true) (n : Nat) :
    l.PollTimes env n sent =
      .done {
        poller := l
        sent := sent
        resp := l.resp
        err := if l.resp = none then l.err else none } := by
  induction n with
  | zero => exact Poll_of_Done env l sent h
  | succ n ih =>
    unfold LROPoller.PollTimes
    rw [Poll_of_Done env l sent h]
    exact ih

/-- A call of `Poll` that changes the recorded error clears the cached
response. -/
lemma Poll_records_clears (env : Env) (l : LROPoller) (sent : List HttpRequest)
    (o : Outcome) (h : l.Poll env sent = .done o) (hne : o.poller.err ≠ l.err) :
    o.poller.resp = none := by
  unfold LROPoller.Poll at h
  split at h
  · split at h <;> (cases h; exact absurd rfl hne)
  · split at h
    · cases h; exact absurd rfl hne
    · split at h
      · cases h; exact absurd rfl hne
      · split at h
        · split at h
          · cases h
          · cases h; rfl
        · split at h <;> (cases h; exact absurd rfl hne)

/-- C10: on a poller whose `Done` is true, `Poll` (and every further `Poll`)
sends no request, leaves the poller unchanged, and returns the cached response
if there is one and otherwise the recorded error; a `Poll` that records a
terminal error clears the cached response, so every later `Poll` returns that
error and `Done` stays true. -/
theorem Poll_terminal (env : Env) (l : LROPoller) (sent : List HttpRequest)
    (h : l.Done = true) :
    (∀ n, l.PollTimes env n sent =
      .done {
        poller := l
        sent := sent
        resp := l.resp
        err := if l.resp = none then l.err else none }) ∧
    (∀ (l0 : LROPoller) (sent0 : List HttpRequest) (e : Error),
      l0.err = none → l0.Poll env sent0 = .done { poller := l, sent := sent, resp := none, err := some e } →
      l.err = some e →
        ∀ n, l.PollTimes env n sent =
          .done { poller := l, sent := sent, resp := none, err := some e }) := by
  refine ⟨PollTimes_of_Done env l sent h, ?_⟩
  intro l0 sent0 e h0 hp he n
  have hr : l.resp = none :=
    Poll_records_clears env l0 sent0 _ hp (by simp [he, h0])
  rw [PollTimes_of_Done env l sent h n, hr, he]
  simp

/-- C10 at a Location-strategy poller whose first poll is answered with `404`:
the poll records the unmarshalled error, and every later poll returns it
without sending. -/
theorem Poll_terminal_witness :
    samplePending.Poll Env.strict [] =
      .done {
        poller := sampleFailed
        sent := [{ Method := "GET", URL := "/op/2" }]
        resp := none
        err := some ⟨"operation failed"⟩ } ∧
    sampleFailed.Done = true ∧
    (∀ n, sampleFailed.PollTimes Env.strict n [{ Method := "GET", URL := "/op/2" }] =
      .done {
        poller := sampleFailed
        sent := [{ Method := "GET", URL := "/op/2" }]
        resp := none
        err := some ⟨"operation failed"⟩ }) :=
  ⟨rfl, rfl,
    (Poll_terminal Env.strict sampleFailed [{ Method := "GET", URL := "/op/2" }] rfl).2
      samplePending [] ⟨"operation failed"⟩ rfl rfl rfl⟩

/-! ## The poll cycle -/

/-- C11: on a poller that is not done, when the pipeline's send returns a
transport error, `Poll` returns that error and no response, and the poller
(cached response, recorded error, strategy state, pipeline and unmarshaller) is
exactly what it was. -/
theorem Poll_transport_error (env : Env) (l : LROPoller) (sent : List HttpRequest)
    (req : HttpRequest) (e : Error)
    (hd : l.Done = false)
    (hreq : NewRequest env MethodGet l.lro.PollURL = .ok req)
    (hsend : l.pl.Do sent req = .error e) :
    l.Poll env sent =
      .done { poller := l, sent := sent ++ [req], resp := none, err := some e } := by
  unfold LROPoller.Poll
  simp [hd, hreq, hsend]

/-- C11 at a pending Location-strategy poller behind a transport that is
down. -/
theorem Poll_transport_error_witness :
    sampleOffline.Poll Env.sample [] =
      .done {
        poller := sampleOffline
        sent := [{ Method := "GET", URL := "/op/2" }]
        resp := none
        err := some ⟨"dial tcp: connection refused"⟩ } :=
  Poll_transport_error Env.sample sampleOffline [] { Method := "GET", URL := "/op/2" }
    ⟨"dial tcp: connection refused"⟩ rfl rfl rfl

/-- C12: on a poller that is not done, a poll response whose status code is
none of 200, 201, 202, 204 makes `Poll` record the error unmarshaller's result
for that response as the poller's error, clear the cached response and return
that result; the strategy is not updated. -/
theorem Poll_rejected_response (env : Env) (l : LROPoller) (sent : List HttpRequest)
    (req : HttpRequest) (resp : Response) (eu : ErrorUnmarshaller)
    (hd : l.Done = false)
    (hreq : NewRequest env MethodGet l.lro.PollURL = .ok req)
    (hsend : l.pl.Do sent req = .ok resp)
    (hcode : ¬ (resp.StatusCode = 200 ∨ resp.StatusCode = 201 ∨
      resp.StatusCode = 202 ∨ resp.StatusCode = 204))
    (heu : l.eu = some eu) :
    l.Poll env sent =
      .done {
        poller := { lro := l.lro, pl := l.pl, eu := l.eu, resp := none, err := eu resp }
        sent := sent ++ [req]
        resp := none
        err := eu resp } := by
  have hv : lroStatusCodeValid resp = false := (lroStatusCodeValid_false resp).2 hcode
  unfold LROPoller.Poll
  simp [hd, hreq, hsend, hv, heu]

/-- C12 at a pending Location-strategy poller whose poll is answered with
`404`. -/
theorem Poll_rejected_response_witness :
    samplePending.Poll Env.sample [] =
      .done {
        poller := {
          lro := .loc { pollURL := "/op/2", status := 202 }
          pl := Pipeline.notFound
          eu := some sampleUnmarshaller
          resp := none
          err := some ⟨"operation failed"⟩ }
        sent := [{ Method := "GET", URL := "/op/2" }]
        resp := none
        err := some ⟨"operation failed"⟩ } :=
  Poll_rejected_response Env.sample samplePending [] { Method := "GET", URL := "/op/2" }
    { StatusCode := 404, Header := [], Body := Body.ofBytes ""
      Request := some { Method := "GET", URL := "/op/2" } }
    sampleUnmarshaller rfl rfl rfl (by decide) rfl

/-- C13: a pending Location-strategy poller whose cached response is the `202`
initiating response polls once and receives `200` with a body; `Poll` returns
the response received and updates the strategy, but the poller's cached
response is still the initiating response, not the one just received. -/
theorem Poll_keeps_stale_response :
    ∃ o : Outcome, sampleLocPolling.Poll Env.sample [] = .done o ∧
      o.err = none ∧
      o.resp = some {
        StatusCode := 200
        Header := []
        Body := Body.ofBytes bodySucceededAt
        Request := some { Method := "GET", URL := "/op/2" } } ∧
      o.poller.lro = .loc { pollURL := "/op/2", status := 200 } ∧
      o.poller.resp = some (sampleResponse 202 [("Location", ["/op/2"])]) ∧
      o.poller.resp ≠ o.resp := by
  refine ⟨_, rfl, rfl, rfl, rfl, rfl, ?_⟩
  decide

/-- A `Poll` that gets an accepted response leaves the cached response as it
was, whether or not the strategy's `Update` succeeds. -/
lemma Poll_accepted_resp (env : Env) (l : LROPoller) (sent : List HttpRequest)
    (req : HttpRequest) (resp : Response)
    (hd : l.Done = false)
    (hreq : NewRequest env MethodGet l.lro.PollURL = .ok req)
    (hsend : l.pl.Do sent req = .ok resp)
    (hv : lroStatusCodeValid resp = true) :
    ∃ o : Outcome, l.Poll env sent = .done o ∧ o.poller.resp = l.resp ∧
      o.poller.err = l.err ∧ o.poller.lro = (l.lro.Update env resp).1 ∧
      o.sent = sent ++ [req] := by
  unfold LROPoller.Poll
  simp only [hd, hreq, hsend, hv]
  rcases hu : l.lro.Update env resp with ⟨lro1, resp1, _ | err⟩ <;> simp

/-! ## The strategies' `Update` -/

lemma extractJSONValue_ofBytes_body (env : Env) (b val : String) :
    (extractJSONValue env (Body.ofBytes b) val).2 = Body.ofBytes "" := by
  unfold extractJSONValue Body.ReadAll Body.ofBytes
  simp only
  split
  · rfl
  · split
    · rfl
    · split <;> rfl

/-- What `opPoller.Update` returns when the body reads without error, in terms
of what `extractJSONValue` returns on the bytes read. -/
lemma opPoller_Update_eq (env : Env) (p : opPoller) (resp : Response)
    (hread : resp.Body.readErr = none) :
    p.Update env resp =
      match (extractJSONValue env (Body.ofBytes resp.Body.unread) "status").1 with
      | .error err => (p, { resp with Body := Body.ofBytes "" }, some err)
      | .ok status =>
        ({ req := p.req
           pollURL :=
             if resp.Header.Get "Operation-Location" ≠ "" then
               resp.Header.Get "Operation-Location"
             else p.pollURL
           locURL := p.locURL
           status := status },
          { resp with Body := Body.ofBytes "" }, none) := by
  have hb := extractJSONValue_ofBytes_body env resp.Body.unread "status"
  unfold opPoller.Update Body.ReadAll
  simp only [hread]
  rcases he : extractJSONValue env (Body.ofBytes resp.Body.unread) "status" with ⟨res, b2⟩
  rw [he] at hb
  simp only at hb
  subst hb
  cases res with
  | error err => rfl
  | ok status =>
    simp only [headerOperationLocation]
    split_ifs <;> rfl

lemma opPoller_Update_frame (env : Env) (p : opPoller) (resp : Response) :
    (p.Update env resp).1.req = p.req ∧ (p.Update env resp).1.locURL = p.locURL := by
  unfold opPoller.Update
  split
  · exact ⟨rfl, rfl⟩
  · split
    · exact ⟨rfl, rfl⟩
    · simp only
      split_ifs <;> exact ⟨rfl, rfl⟩

lemma opPoller_Update_pollURL (env : Env) (p : opPoller) (resp : Response)
    (h : (p.Update env resp).2.2 = none) :
    (p.Update env resp).1.pollURL =
      if resp.Header.Get "Operation-Location" ≠ "" then
        resp.Header.Get "Operation-Location"
      else p.pollURL := by
  unfold opPoller.Update at h ⊢
  split at h
  · simp at h
  · split at h
    · simp at h
    · simp only [headerOperationLocation]
      split_ifs <;> rfl

/-- C14: a successful `Update` of the Operation-Location strategy leaves the
poll URL equal to the response's `Operation-Location` value when that is
non-empty and to the previous poll URL otherwise, and no `Update` changes the
captured request or the fallback URL; `Update` of the Location strategy always
succeeds and does the same with the `Location` header. -/
theorem Update_pollURL (env : Env) (p : opPoller) (q : locPoller) (resp : Response) :
    ((p.Update env resp).2.2 = none →
      (p.Update env resp).1.pollURL =
        if resp.Header.Get "Operation-Location" ≠ "" then
          resp.Header.Get "Operation-Location"
        else p.pollURL) ∧
    (p.Update env resp).1.req = p.req ∧
    (p.Update env resp).1.locURL = p.locURL ∧
    (q.Update resp).2 = none ∧
    (q.Update resp).1.pollURL =
      if resp.Header.Get "Location" ≠ "" then resp.Header.Get "Location" else q.pollURL :=
  ⟨opPoller_Update_pollURL env p resp, (opPoller_Update_frame env p resp).1,
    (opPoller_Update_frame env p resp).2, rfl, by
      unfold locPoller.Update
      simp only [headerLocation]
      split_ifs <;> rfl⟩

/-- C14 at two successful updates of the Operation-Location strategy, one with
a fresh `Operation-Location` header and one without. -/
theorem Update_pollURL_witness :
    ((sampleOp "").Update Env.sample
        (samplePollResponse bodyRunning [("Operation-Location", ["/op/9"])])).2.2 = none ∧
    ((sampleOp "").Update Env.sample
        (samplePollResponse bodyRunning [("Operation-Location", ["/op/9"])])).1 =
      { sampleOp "Running" with pollURL := "/op/9" } ∧
    ((sampleOp "").Update Env.sample (samplePollResponse bodyRunning [])).2.2 = none ∧
    ((sampleOp "").Update Env.sample (samplePollResponse bodyRunning [])).1.pollURL = "/op/1" :=
  ⟨by decide, by decide, by decide,
    ((Update_pollURL Env.sample (sampleOp "") { pollURL := "/op/2", status := 202 }
      (samplePollResponse bodyRunning [])).1 (by decide)).trans (by decide)⟩

/-- C15: `Update` of the Operation-Location strategy succeeds on a `200`
response with body `{"status":"Running"}`, but the body it leaves on the
response is drained: a later read yields no bytes instead of the body. -/
theorem opPoller_Update_drains_body :
    ((sampleOp "").Update Env.sample (samplePollResponse bodyRunning [])).2.2 = none ∧
    ((sampleOp "").Update Env.sample (samplePollResponse bodyRunning [])).1.status =
      "Running" ∧
    ((sampleOp "").Update Env.sample
      (samplePollResponse bodyRunning [])).2.1.Body.ReadAll.1 = "" ∧
    ((sampleOp "").Update Env.sample
      (samplePollResponse bodyRunning [])).2.1.Body.ReadAll.1 ≠ bodyRunning := by
  decide

/-! ## `extractJSONValue` -/

/-- What `extractJSONValue` returns on a reader that yields the bytes `b`, by
what the decoder makes of them. -/
lemma extractJSONValue_ofBytes (env : Env) (b val : String) :
    (extractJSONValue env (Body.ofBytes b) val).1 =
      match env.jsonObject b with
      | .error err => .error err
      | .ok obj =>
        if obj.length = 0 then .error ⟨"the response does not contain a body"⟩
        else
          match obj.lookup val with
          | none => .error ⟨"the response body does not contain field %!s(<nil>)"⟩
          | some (.string vv) => .ok vv
          | some _ => .error ⟨"the status value  was not in string format"⟩ := by
  unfold extractJSONValue Body.ReadAll Body.ofBytes
  simp only
  split
  · rfl
  · split
    · rfl
    · split <;> rfl

lemma extractJSONValue_ok_iff (env : Env) (b val v : String) :
    (extractJSONValue env (Body.ofBytes b) val).1 = .ok v ↔
      ∃ obj, env.jsonObject b = .ok obj ∧ obj ≠ [] ∧ obj.lookup val = some (.string v) := by
  rw [extractJSONValue_ofBytes]
  constructor
  · intro h
    cases hj : env.jsonObject b with
    | error err => rw [hj] at h; simp at h
    | ok obj =>
      rw [hj] at h
      simp only at h
      by_cases hl : obj.length = 0
      · rw [if_pos hl] at h; simp at h
      · rw [if_neg hl] at h
        refine ⟨obj, rfl, fun e => hl (by rw [e]; rfl), ?_⟩
        split at h
        · simp at h
        · rename_i vv hlook
          cases h
          exact hlook
        · simp at h
  · rintro ⟨obj, hj, hne, hlook⟩
    have hl : ¬ obj.length = 0 := fun e => hne (List.eq_nil_of_length_eq_zero e)
    rw [hj]
    simp only [hl, if_false, hlook]

lemma opPoller_Update_fails (env : Env) (p : opPoller) (resp : Response)
    (hread : resp.Body.readErr = none)
    (h : ∀ v, (extractJSONValue env (Body.ofBytes resp.Body.unread) "status").1 ≠ .ok v) :
    ∃ err, p.Update env resp = (p, { resp with Body := Body.ofBytes "" }, some err) := by
  rw [opPoller_Update_eq env p resp hread]
  cases he : (extractJSONValue env (Body.ofBytes resp.Body.unread) "status").1 with
  | error err => exact ⟨err, rfl⟩
  | ok v => exact absurd he (h v)

/-- C16: on a body that reads as the bytes `b`, `extractJSONValue` returns the
string `v` exactly when `b` decodes to a non-empty JSON object holding the
string `v` under the field, and returns an error in every other case: `b` does
not decode (as the empty body, which `encoding/json` rejects), decodes to the
empty object, lacks the field, or holds a non-string under it. Hence `Update` of
the Operation-Location strategy fails, leaving the strategy as it was, on a
response (a `202` included) whose body is empty or has no string `status`. -/
theorem extractJSONValue_spec (env : Env) (b val : String)
    (hempty : ∃ err, env.jsonObject "" = .error err) :
    (∀ v, (extractJSONValue env (Body.ofBytes b) val).1 = .ok v ↔
      ∃ obj, env.jsonObject b = .ok obj ∧ obj ≠ [] ∧ obj.lookup val = some (.string v)) ∧
    ((∀ v, (extractJSONValue env (Body.ofBytes b) val).1 ≠ .ok v) →
      ∃ err, (extractJSONValue env (Body.ofBytes b) val).1 = .error err) ∧
    (∃ err, (extractJSONValue env (Body.ofBytes "") val).1 = .error err) ∧
    (∀ err, env.jsonObject b = .error err →
      (extractJSONValue env (Body.ofBytes b) val).1 = .error err) ∧
    (env.jsonObject b = .ok [] →
      (extractJSONValue env (Body.ofBytes b) val).1 =
        .error ⟨"the response does not contain a body"⟩) ∧
    (∀ obj, env.jsonObject b = .ok obj → obj ≠ [] → obj.lookup val = none →
      ∃ err, (extractJSONValue env (Body.ofBytes b) val).1 = .error err) ∧
    (∀ obj x, env.jsonObject b = .ok obj → obj.lookup val = some x →
      (∀ s, x ≠ .string s) →
      ∃ err, (extractJSONValue env (Body.ofBytes b) val).1 = .error err) ∧
    (∀ (p : opPoller) (resp : Response), resp.Body = Body.ofBytes b →
      (∀ v, (extractJSONValue env (Body.ofBytes b) "status").1 ≠ .ok v) →
      ∃ err, p.Update env resp = (p, { resp with Body := Body.ofBytes "" }, some err)) ∧
    (∀ (p : opPoller) (resp : Response), resp.Body = Body.ofBytes "" →
      ∃ err, p.Update env resp = (p, { resp with Body := Body.ofBytes "" }, some err)) := by
  obtain ⟨e0, he0⟩ := hempty
  have hnone : ∀ (c : String), (∀ v, (extractJSONValue env (Body.ofBytes c) val).1 ≠ .ok v) →
      ∃ err, (extractJSONValue env (Body.ofBytes c) val).1 = .error err := by
    intro c h
    cases he : (extractJSONValue env (Body.ofBytes c) val).1 with
    | error err => exact ⟨err, rfl⟩
    | ok v => exact absurd he (h v)
  have hnot : ∀ (c f : String), (¬ ∃ v obj, env.jsonObject c = .ok obj ∧ obj ≠ [] ∧
      obj.lookup f = some (.string v)) →
      ∀ v, (extractJSONValue env (Body.ofBytes c) f).1 ≠ .ok v := by
    intro c f h v hv
    exact h ⟨v, (extractJSONValue_ok_iff env c f v).1 hv⟩
  refine ⟨fun v => extractJSONValue_ok_iff env b val v, hnone b, ?_, ?_, ?_, ?_, ?_, ?_, ?_⟩
  · exact ⟨e0, by rw [extractJSONValue_ofBytes, he0]⟩
  · intro err h
    rw [extractJSONValue_ofBytes, h]
  · intro h
    rw [extractJSONValue_ofBytes, h]
    rfl
  · intro obj hj _ hlook
    apply hnone b
    apply hnot
    rintro ⟨v, obj2, hj2, _, hl2⟩
    rw [hj] at hj2
    cases hj2
    rw [hlook] at hl2
    cases hl2
  · intro obj x hj hlook hx
    apply hnone b
    apply hnot
    rintro ⟨v, obj2, hj2, _, hl2⟩
    rw [hj] at hj2
    cases hj2
    rw [hlook] at hl2
    cases hl2
    exact hx v rfl
  · intro p resp hb h
    have hread : resp.Body.readErr = none := by rw [hb]; rfl
    have hun : resp.Body.unread = b := by rw [hb]; rfl
    exact opPoller_Update_fails env p resp hread (by rw [hun]; exact h)
  · intro p resp hb
    have hread : resp.Body.readErr = none := by rw [hb]; rfl
    have hun : resp.Body.unread = "" := by rw [hb]; rfl
    apply opPoller_Update_fails env p resp hread
    rw [hun]
    apply hnot
    rintro ⟨v, obj, hj, _, _⟩
    rw [he0] at hj
    cases hj

/-- C16 at the sample decoder: the string `status` of `{"status":"Succeeded"}`
is returned, and `Update` fails on a `202` response without a body. -/
theorem extractJSONValue_spec_witness :
    (extractJSONValue Env.sample (Body.ofBytes bodySucceeded) "status").1 = .ok "Succeeded" ∧
    ∃ err, (sampleOp "").Update Env.sample (sampleResponse 202 []) =
      (sampleOp "", { sampleResponse 202 [] with Body := Body.ofBytes "" }, some err) :=
  ⟨((extractJSONValue_spec Env.sample bodySucceeded "status" ⟨_, rfl⟩).1 "Succeeded").2
      ⟨[("status", .string "Succeeded")], rfl, List.cons_ne_nil _ _, rfl⟩,
    (extractJSONValue_spec Env.sample bodySucceeded "status" ⟨_, rfl⟩).2.2.2.2.2.2.2.2
      (sampleOp "") (sampleResponse 202 []) rfl⟩

/-! ## `FinalResponse` -/

/-- C17: on a poller whose `Done` is false, `FinalResponse` returns an error and
no response, sends no request and leaves the poller as it was, whatever output
shape is supplied. -/
theorem FinalResponse_not_done (env : Env) (l : LROPoller) (sent : List HttpRequest)
    (respType : Option RespType) (h : l.Done = false) :
    l.FinalResponse env sent respType =
      .done {
        poller := l
        sent := sent
        resp := none
        err := some ⟨"cannot return a final response from a poller in a non-terminal state"⟩
        decoded := none } := by
  unfold LROPoller.FinalResponse
  simp [h]

/-- C17 at a pending Location-strategy poller, with an output shape. -/
theorem FinalResponse_not_done_witness :
    samplePending.FinalResponse Env.sample [] (some "Resource") =
      .done {
        poller := samplePending
        sent := []
        resp := none
        err := some ⟨"cannot return a final response from a poller in a non-terminal state"⟩
        decoded := none } :=
  FinalResponse_not_done Env.sample samplePending [] (some "Resource") rfl

/-- C18: for a terminal Operation-Location strategy and a response whose body
decodes to a JSON object with the string `v` under `resourceLocation`,
`FinalGetURL` returns `v` when it is non-empty; otherwise, with `req` the
captured request, its URL when its method is PUT or PATCH, else the fallback
Location URL when the method is POST and the fallback is non-empty, else the
empty string. -/
theorem opPoller_FinalGetURL_spec (env : Env) (p : opPoller) (r : Response)
    (obj : List (String × JsonValue)) (v : String)
    (hd : p.Done = true)
    (hread : r.Body.readErr = none)
    (hobj : env.jsonObject r.Body.unread = .ok obj)
    (hv : obj.lookup "resourceLocation" = some (.string v)) :
    (v ≠ "" →
      p.FinalGetURL env (some r) =
        .done (.ok v, some { r with Body := { r.Body with unread := "" } })) ∧
    (v = "" → ∀ req, p.req = some req →
      p.FinalGetURL env (some r) =
        .done (.ok
          (if req.Method = "PUT" ∨ req.Method = "PATCH" then req.URL
           else if req.Method = "POST" ∧ p.locURL ≠ "" then p.locURL
           else ""), some { r with Body := { r.Body with unread := "" } })) := by
  have hne : ¬ obj.length = 0 := by
    intro e
    rw [List.eq_nil_of_length_eq_zero e] at hv
    cases hv
  have hx : extractJSONValue env r.Body "resourceLocation" =
      (.ok v, { r.Body with unread := "" }) := by
    unfold extractJSONValue Body.ReadAll
    simp only [hread, hobj, hne, if_false, hv]
  constructor
  · intro hvne
    unfold opPoller.FinalGetURL
    simp [hd, hx, hvne]
  · intro hve req hreq
    subst hve
    unfold opPoller.FinalGetURL
    simp only [hd, hx, hreq, MethodPatch, MethodPut, MethodPost]
    by_cases h1 : req.Method = "PUT" ∨ req.Method = "PATCH"
    · have h1' : req.Method = "PATCH" ∨ req.Method = "PUT" := h1.symm
      simp [h1, h1']
    · have h1' : ¬ (req.Method = "PATCH" ∨ req.Method = "PUT") := fun h => h1 h.symm
      by_cases h2 : req.Method = "POST" ∧ p.locURL ≠ ""
      · simp [h1, h1', h2]
      · simp only [Bool.not_true, Bool.false_eq_true, if_false, ne_eq, not_true_eq_false,
          h1, h1', h2]

/-- C18 at a terminal strategy for a `PUT`: a `resourceLocation` of `/res/42`
is returned, and with an empty `resourceLocation` the request's own URL. -/
theorem opPoller_FinalGetURL_spec_witness :
    (sampleOp "Succeeded").FinalGetURL Env.sample
        (some (samplePollResponse bodySucceededAt [])) =
      .done (.ok "/res/42", some (samplePollResponse "" [])) ∧
    (sampleOp "Succeeded").FinalGetURL Env.sample
        (some (samplePollResponse bodySucceededNowhere [])) =
      .done (.ok "https://example.org/res/1", some (samplePollResponse "" [])) :=
  ⟨(opPoller_FinalGetURL_spec Env.sample (sampleOp "Succeeded")
      (samplePollResponse bodySucceededAt [])
      [("status", .string "Succeeded"), ("resourceLocation", .string "/res/42")] "/res/42"
      (by decide) rfl rfl rfl).1 (by decide),
    (opPoller_FinalGetURL_spec Env.sample (sampleOp "Succeeded")
      (samplePollResponse bodySucceededNowhere [])
      [("status", .string "Succeeded"), ("resourceLocation", .string "")] ""
      (by decide) rfl rfl rfl).2 rfl _ rfl⟩

/-- C19: for a terminal Operation-Location strategy whose request was a `PUT`
and the last-poll body `{"status":"Succeeded"}`, which has no
`resourceLocation` field, `FinalGetURL` returns the error of the missing field
instead of the request's URL. -/
theorem opPoller_FinalGetURL_missing_field :
    (sampleOp "Succeeded").Done = true ∧
    (sampleOp "Succeeded").req =
      some { Method := "PUT", URL := "https://example.org/res/1" } ∧
    Env.sample.jsonObject bodySucceeded = .ok [("status", .string "Succeeded")] ∧
    (sampleOp "Succeeded").FinalGetURL Env.sample
        (some (samplePollResponse bodySucceeded [])) =
      .done (.error ⟨"the response body does not contain field %!s(<nil>)"⟩,
        some (samplePollResponse "" [])) :=
  ⟨by decide, rfl, rfl, rfl⟩

/-- C20: on a poller whose `Done` is true and which holds a cached response,
`FinalResponse` without an output shape returns that response with no error;
no request is sent, nothing is decoded, and the poller, the body of its cached
response included, is as it was. -/
theorem FinalResponse_nil_shape (env : Env) (l : LROPoller) (sent : List HttpRequest)
    (r : Response) (hd : l.Done = true) (hr : l.resp = some r) :
    l.FinalResponse env sent none =
      .done { poller := l, sent := sent, resp := some r, err := none, decoded := none } := by
  unfold LROPoller.FinalResponse
  simp [hd, hr]

/-- C20 at a Location-strategy poller whose last poll was answered `200`. -/
theorem FinalResponse_nil_shape_witness :
    sampleLocDone.FinalResponse Env.sample [] none =
      .done {
        poller := sampleLocDone
        sent := []
        resp := some (sampleResponse 202 [("Location", ["/op/2"])])
        err := none
        decoded := none } :=
  FinalResponse_nil_shape Env.sample sampleLocDone [] _ rfl rfl

/-! ## `ResumeToken` -/

/-- C21: `ResumeToken` returns an error and the empty token on a poller whose
`Done` is true, panics with `NYI` on one whose `Done` is false, and so never
returns a token without an error. -/
theorem ResumeToken_never_succeeds (l : LROPoller) :
    (l.Done = true →
      l.ResumeToken =
        .done ("", some ⟨"cannot create a ResumeToken from a poller in a terminal state"⟩)) ∧
    (l.Done = false → l.ResumeToken = .panicked "NYI") ∧
    (∀ token, l.ResumeToken ≠ .done (token, none)) := by
  unfold LROPoller.ResumeToken
  cases h : l.Done <;> simp

/-! ## Terminal errors -/

/-- C27: on the poller left by a poll answered with `404`, which has a recorded
error and no cached response, `FinalResponse` does not return the recorded
error: it panics on the nil cached response, with and without an output
shape. -/
theorem FinalResponse_after_error_panics :
    sampleFailed.err = some ⟨"operation failed"⟩ ∧ sampleFailed.resp = none ∧
    sampleFailed.Done = true ∧
    sampleFailed.FinalResponse Env.sample [] none = .panicked "nil pointer dereference" ∧
    sampleFailed.FinalResponse Env.sample [] (some "Resource") =
      .panicked "nil pointer dereference" :=
  ⟨rfl, rfl, rfl, rfl, rfl⟩

/-- C28, as stated, fails: with an unmarshaller that returns nil, a poll
answered with `404` leaves `Done` false, and the next poll sends a second
request. -/
theorem Poll_silent_unmarshaller_not_terminal :
    ∃ o1 o2 : Outcome,
      sampleSilent.Poll Env.sample [] = .done o1 ∧
      o1.poller.err = none ∧ o1.err = none ∧ o1.poller.Done = false ∧
      o1.poller.Poll Env.sample o1.sent = .done o2 ∧
      o2.sent = [{ Method := "GET", URL := "/op/2" }, { Method := "GET", URL := "/op/2" }] :=
  ⟨_, _, rfl, rfl, rfl, rfl, rfl, rfl⟩

/-- C28, amended: when the error unmarshaller returns an error `e` for a poll
response whose status code fails the classifier, after that `Poll` the poller's
`Done` is true and every later `Poll` returns `e` without sending a request or
changing the poller. -/
theorem Poll_rejected_then_terminal (env : Env) (l : LROPoller) (sent : List HttpRequest)
    (req : HttpRequest) (resp : Response) (eu : ErrorUnmarshaller) (e : Error)
    (hd : l.Done = false)
    (hreq : NewRequest env MethodGet l.lro.PollURL = .ok req)
    (hsend : l.pl.Do sent req = .ok resp)
    (hcode : ¬ (resp.StatusCode = 200 ∨ resp.StatusCode = 201 ∨
      resp.StatusCode = 202 ∨ resp.StatusCode = 204))
    (heu : l.eu = some eu) (he : eu resp = some e) :
    ∃ o : Outcome, l.Poll env sent = .done o ∧ o.err = some e ∧ o.poller.err = some e ∧
      o.poller.Done = true ∧
      ∀ n, o.poller.PollTimes env n o.sent =
        .done { poller := o.poller, sent := o.sent, resp := none, err := some e } := by
  have hv : lroStatusCodeValid resp = false := (lroStatusCodeValid_false resp).2 hcode
  have hp : l.Poll env sent =
      .done {
        poller := { lro := l.lro, pl := l.pl, eu := l.eu, resp := none, err := some e }
        sent := sent ++ [req], resp := none, err := some e } := by
    unfold LROPoller.Poll
    simp [hd, hreq, hsend, hv, heu, he]
  have hdone : LROPoller.Done
      { lro := l.lro, pl := l.pl, eu := l.eu, resp := none, err := some e } = true := by
    simp [LROPoller.Done]
  refine ⟨_, hp, rfl, rfl, hdone, fun n => ?_⟩
  rw [PollTimes_of_Done env _ _ hdone n]
  simp

/-- C28, amended, at a pending Location-strategy poller whose poll is answered
with `404`. -/
theorem Poll_rejected_then_terminal_witness :
    ∃ o : Outcome, samplePending.Poll Env.sample [] = .done o ∧
      o.err = some ⟨"operation failed"⟩ ∧ o.poller.err = some ⟨"operation failed"⟩ ∧
      o.poller.Done = true ∧
      ∀ n, o.poller.PollTimes Env.sample n o.sent =
        .done {
          poller := o.poller, sent := o.sent, resp := none
          err := some ⟨"operation failed"⟩ } :=
  Poll_rejected_then_terminal Env.sample samplePending [] { Method := "GET", URL := "/op/2" }
    { StatusCode := 404, Header := [], Body := Body.ofBytes ""
      Request := some { Method := "GET", URL := "/op/2" } }
    sampleUnmarshaller ⟨"operation failed"⟩ rfl rfl rfl (by decide) rfl rfl

/-! ## A malformed poll body -/

/-- C30: when `Update` of the Operation-Location strategy returns an error, the
strategy is as it was (status, poll URL, fallback URL, captured request), and a
`Poll` of a poller on that strategy that receives this response returns the
error and leaves the poller, its cached response and recorded error included,
as it was, so `Done` is still false. -/
theorem Poll_malformed_body (env : Env) (l : LROPoller) (p : opPoller)
    (sent : List HttpRequest) (req : HttpRequest) (resp : Response) (e : Error)
    (hu : (p.Update env resp).2.2 = some e) :
    (p.Update env resp).1 = p ∧
    (l.lro = .op p → l.Done = false →
      NewRequest env MethodGet l.lro.PollURL = .ok req →
      l.pl.Do sent req = .ok resp → lroStatusCodeValid resp = true →
      l.Poll env sent =
        .done { poller := l, sent := sent ++ [req], resp := none, err := some e }) := by
  have hp : (p.Update env resp).1 = p := by
    unfold opPoller.Update at hu ⊢
    rcases hr : resp.Body.ReadAll with ⟨body, _ | err, b1⟩
    · simp only [hr] at hu ⊢
      rcases hx : extractJSONValue env (Body.ofBytes body) "status" with ⟨_ | status, b2⟩
      · simp only [hx]
      · simp [hx] at hu
    · simp only [hr]
  refine ⟨hp, fun hl hd hreq hsend hv => ?_⟩
  have hup : l.lro.Update env resp = (.op p, (p.Update env resp).2.1, some e) := by
    rw [hl]
    simp only [lroPoller.Update]
    rcases hx : p.Update env resp with ⟨p1, r1, e1⟩
    rw [hx] at hu hp
    simp only at hu hp
    rw [hu, hp]
  unfold LROPoller.Poll
  simp only [hd, hreq, hsend, hv, hup]
  cases l
  simp_all

/-- C30 at a pending Operation-Location poller whose poll is answered `200`
without a body. -/
theorem Poll_malformed_body_witness :
    sampleOpPending.Poll Env.sample [] =
      .done {
        poller := sampleOpPending
        sent := [{ Method := "GET", URL := "/op/1" }]
        resp := none
        err := some ⟨"unexpected end of JSON input"⟩ } :=
  (Poll_malformed_body Env.sample sampleOpPending (sampleOp "") []
    { Method := "GET", URL := "/op/1" } (samplePollResponse "" [])
    ⟨"unexpected end of JSON input"⟩ (by decide)).2 rfl (by decide) rfl rfl (by decide)

/-! ## Scenarios -/

/-- C22: an initiating `PUT` response has `Operation-Location: /op/1`; the first
poll returns `{"status":"Running"}` without a new header, the second
`{"status":"Succeeded","resourceLocation":"/res/42"}`. After the first poll
`Done` is false and the poll URL is still `/op/1`; after the second `Done` is
true. `FinalResponse` with an output shape then looks for `resourceLocation`
in the cached response, which is still the initiating one, fails on its body and
sends no `GET` to `/res/42`. -/
theorem FinalResponse_ignores_polled_resourceLocation :
    ∃ (l0 : LROPoller) (o1 o2 : Outcome) (f : FinalOutcome),
      NewLROPoller scenarioPut
          (Pipeline.replay
            [samplePollResponse bodyRunning [], samplePollResponse bodySucceededAt []])
          (some sampleUnmarshaller) = (some l0, none) ∧
      l0.Poll Env.sample [] = .done o1 ∧ o1.err = none ∧
      o1.poller.Done = false ∧ o1.poller.lro.PollURL = "/op/1" ∧
      o1.poller.Poll Env.sample o1.sent = .done o2 ∧ o2.err = none ∧
      o2.poller.Done = true ∧
      o2.sent = [{ Method := "GET", URL := "/op/1" }, { Method := "GET", URL := "/op/1" }] ∧
      o2.poller.resp = some scenarioPut ∧
      o2.poller.FinalResponse Env.sample o2.sent (some "Resource") = .done f ∧
      f.sent = o2.sent ∧ f.resp = none ∧
      f.err = some ⟨"unexpected end of JSON input"⟩ :=
  ⟨_, _, _, _, rfl, rfl, rfl, by decide, by decide, rfl, rfl, by decide, rfl, rfl, rfl, rfl,
    rfl, rfl⟩

/-- C23: a Location-strategy poller is built from a `202` response to a `POST`;
the first poll returns `202`, the second `200` with a body. After the second
poll `Done` is true, and `FinalResponse` sends no request, but what it returns
is the initiating `202` response, not the `200` response of the last poll; with
an output shape it decodes the initiating response's body, not the last
poll's. -/
theorem FinalResponse_returns_initiating_response :
    ∃ (l0 : LROPoller) (o1 o2 : Outcome) (f g : FinalOutcome),
      NewLROPoller scenarioPost
          (Pipeline.replay [scenarioPoll 202 "" false, scenarioPoll 200 bodySucceeded false])
          (some sampleUnmarshaller) = (some l0, none) ∧
      l0.Poll Env.sample [] = .done o1 ∧ o1.poller.Done = false ∧
      o1.poller.Poll Env.sample o1.sent = .done o2 ∧
      o2.resp = some (scenarioPoll 200 bodySucceeded false) ∧ o2.err = none ∧
      o2.poller.Done = true ∧
      o2.poller.FinalResponse Env.sample o2.sent none = .done f ∧
      f.sent = o2.sent ∧ f.err = none ∧ f.resp = some scenarioPost ∧ f.resp ≠ o2.resp ∧
      o2.poller.FinalResponse Env.sample o2.sent (some "Resource") = .done g ∧
      g.sent = o2.sent ∧ g.resp = none ∧ g.decoded = none ∧
      g.err = some ⟨"unexpected end of JSON input"⟩ :=
  ⟨_, _, _, _, _, rfl, rfl, by decide, rfl, rfl, rfl, by decide, rfl, rfl, rfl, rfl,
    by decide, rfl, rfl, rfl, rfl, rfl⟩

/-! ## `PollUntilDone` -/

/-- More fuel does not change what the loop of `PollUntilDone` returns. -/
lemma pollLoop_succ (w : Waiting) (env : Env) (freq : Int) (respType : Option RespType)
    (fuel : Nat) (l : LROPoller) (sent : List HttpRequest) (delays : List Int)
    (waitedOn : List (Option Response)) (r : Run DriveOutcome)
    (h : l.pollLoop w env freq respType fuel sent delays waitedOn = some r) :
    l.pollLoop w env freq respType (fuel + 1) sent delays waitedOn = some r := by
  induction fuel generalizing l sent delays waitedOn with
  | zero => simp [LROPoller.pollLoop] at h
  | succ n ih =>
    rw [LROPoller.pollLoop] at h ⊢
    cases hp : l.Poll env sent with
    | panicked reason => rw [hp] at h; exact h
    | done o =>
      rw [hp] at h
      try simp only at h ⊢
      cases he : o.err with
      | some err => rw [he] at h; exact h
      | none =>
        rw [he] at h
        try simp only at h ⊢
        by_cases hd : o.poller.Done = true
        · rw [if_pos hd] at h ⊢; exact h
        · rw [if_neg hd] at h ⊢
          try simp only at h ⊢
          cases hc : delay w delays.length
              (if w.RetryAfter o.resp > 0 then w.RetryAfter o.resp else freq) with
          | some err => rw [hc] at h; exact h
          | none =>
            rw [hc] at h
            exact ih _ _ _ _ h

/-- What a returning run of the loop of `PollUntilDone` leaves in its record. -/
lemma pollLoop_record (w : Waiting) (env : Env) (freq : Int) (respType : Option RespType)
    (fuel : Nat) (l : LROPoller) (sent : List HttpRequest) (delays : List Int)
    (waitedOn : List (Option Response)) (out : DriveOutcome)
    (h : l.pollLoop w env freq respType fuel sent delays waitedOn = some (.done out)) :
    (∃ extra, out.waitedOn = waitedOn ++ extra ∧
      out.delays = delays ++ extra.map (nextDelay w freq)) ∧
    ∃ o, out.lastPoll = some o ∧
      (∀ e, o.err = some e →
        out.finals = [] ∧ out.err = some e ∧ out.resp = none ∧ out.poller = o.poller ∧
          out.sent = o.sent) ∧
      (o.err = none → o.poller.Done = true →
        out.finals = [o.poller] ∧
          o.poller.FinalResponse env o.sent respType =
            .done {
              poller := out.poller, sent := out.sent, resp := out.resp, err := out.err
              decoded := out.decoded }) ∧
      (o.err = none → o.poller.Done = false →
        out.finals = [] ∧ out.resp = none ∧ out.poller = o.poller ∧ out.sent = o.sent ∧
          ∃ k, out.err = delay w k (nextDelay w freq o.resp) ∧ out.err ≠ none) := by
  induction fuel generalizing l sent delays waitedOn with
  | zero => simp [LROPoller.pollLoop] at h
  | succ n ih =>
    rw [LROPoller.pollLoop] at h
    cases hp : l.Poll env sent with
    | panicked reason => rw [hp] at h; simp at h
    | done o =>
      rw [hp] at h
      try simp only at h
      cases he : o.err with
      | some err =>
        rw [he] at h
        simp only [Option.some.injEq, Run.done.injEq] at h
        subst h
        refine ⟨⟨[], by simp, by simp⟩, o, rfl, ?_, ?_, ?_⟩
        · intro e hee
          rw [he] at hee
          cases hee
          exact ⟨rfl, rfl, rfl, rfl, rfl⟩
        · intro hn; rw [he] at hn; cases hn
        · intro hn; rw [he] at hn; cases hn
      | none =>
        rw [he] at h
        try simp only at h
        by_cases hd : o.poller.Done = true
        · rw [if_pos hd] at h
          cases hf : o.poller.FinalResponse env o.sent respType with
          | panicked reason => rw [hf] at h; simp at h
          | done f =>
            rw [hf] at h
            simp only [Option.some.injEq, Run.done.injEq] at h
            subst h
            refine ⟨⟨[], by simp, by simp⟩, o, rfl, ?_, ?_, ?_⟩
            · intro e hee; rw [he] at hee; cases hee
            · intro _ _; exact ⟨rfl, hf⟩
            · intro _ hnd; rw [hd] at hnd; cases hnd
        · rw [if_neg hd] at h
          try simp only at h
          cases hc : delay w delays.length
              (if w.RetryAfter o.resp > 0 then w.RetryAfter o.resp else freq) with
          | some err =>
            rw [hc] at h
            simp only [Option.some.injEq, Run.done.injEq] at h
            subst h
            refine ⟨⟨[o.resp], rfl, by simp [nextDelay]⟩, o, rfl, ?_, ?_, ?_⟩
            · intro e hee; rw [he] at hee; cases hee
            · intro _ hdd; exact absurd hdd hd
            · intro _ _
              exact ⟨rfl, rfl, rfl, rfl, delays.length, by simp only [nextDelay]; rw [hc],
                by simp⟩
          | none =>
            rw [hc] at h
            obtain ⟨⟨extra, h1, h2⟩, rest⟩ := ih _ _ _ _ h
            refine ⟨⟨o.resp :: extra, ?_, ?_⟩, rest⟩
            · rw [h1]; simp
            · rw [h2]; simp [nextDelay]

lemma pendingFor_succ (env : Env) (n : Nat) (l : LROPoller) (sent : List HttpRequest)
    (h : l.pendingFor env (n + 1) sent = true) :
    ∃ o, l.Poll env sent = .done o ∧ o.err = none ∧ o.poller.Done = false ∧
      o.poller.pendingFor env n o.sent = true := by
  rw [LROPoller.pendingFor] at h
  cases hp : l.Poll env sent with
  | panicked reason => rw [hp] at h; simp at h
  | done o =>
    rw [hp] at h
    simp only [Bool.and_eq_true, Option.isNone_iff_eq_none, Bool.not_eq_true'] at h
    exact ⟨o, rfl, h.1, h.2.1, h.2.2⟩

lemma polledResps_length (env : Env) (n : Nat) (l : LROPoller) (sent : List HttpRequest)
    (h : l.pendingFor env n sent = true) : (l.polledResps env n sent).length = n := by
  induction n generalizing l sent with
  | zero => rfl
  | succ n ih =>
    obtain ⟨o, hp, _, _, hrest⟩ := pendingFor_succ env n l sent h
    rw [LROPoller.polledResps, hp]
    simp [ih _ _ hrest]

/-- After `n` polls that each left the poller not done, the next of the
successive polls is the poll on the poller those polls left. -/
lemma PollTimes_afterPolls (env : Env) (n : Nat) (l : LROPoller) (sent : List HttpRequest)
    (h : l.pendingFor env n sent = true) :
    l.PollTimes env n sent =
      (l.afterPolls env n sent).1.Poll env (l.afterPolls env n sent).2 := by
  induction n generalizing l sent with
  | zero => rfl
  | succ n ih =>
    obtain ⟨o, hp, _, _, hrest⟩ := pendingFor_succ env n l sent h
    rw [LROPoller.PollTimes, LROPoller.afterPolls, hp]
    exact ih _ _ hrest

/-- The loop of `PollUntilDone` through `n` polls that each leave the poller
not done, when the context is not done during the waits that follow them. -/
lemma pollLoop_pending (w : Waiting) (env : Env) (freq : Int) (respType : Option RespType)
    (n fuel : Nat) (l : LROPoller) (sent : List HttpRequest) (delays : List Int)
    (waitedOn : List (Option Response))
    (hp : l.pendingFor env n sent = true)
    (hw : ∀ j d, j < delays.length + n → w.ctxErr j d = none) :
    l.pollLoop w env freq respType (n + fuel) sent delays waitedOn =
      (l.afterPolls env n sent).1.pollLoop w env freq respType fuel (l.afterPolls env n sent).2
        (delays ++ (l.polledResps env n sent).map (nextDelay w freq))
        (waitedOn ++ l.polledResps env n sent) := by
  induction n generalizing l sent delays waitedOn with
  | zero => simp [LROPoller.afterPolls, LROPoller.polledResps]
  | succ n ih =>
    obtain ⟨o, hpoll, herr, hnd, hrest⟩ := pendingFor_succ env n l sent hp
    have hfuel : n + 1 + fuel = (n + fuel) + 1 := by omega
    have hc : delay w delays.length (nextDelay w freq o.resp) = none :=
      hw _ _ (by omega)
    rw [hfuel, LROPoller.pollLoop, hpoll]
    simp only [herr, hnd]
    unfold nextDelay at hc
    simp only [Bool.false_eq_true, if_false, hc]
    rw [ih o.poller o.sent _ _ hrest
      (by intro j d hj; exact hw j d (by simp at hj; omega))]
    rw [LROPoller.afterPolls, LROPoller.polledResps, hpoll]
    simp [nextDelay]

/-- The entry of `PollUntilDone` when the context is not done during the initial
wait. -/
lemma PollUntilDone_start (w : Waiting) (env : Env) (fuel : Nat) (l : LROPoller)
    (sent : List HttpRequest) (freq : Int) (respType : Option RespType)
    (hw : ∀ j d, j < (initialDelay w l).length → w.ctxErr j d = none) :
    l.PollUntilDone w env fuel sent freq respType =
      l.pollLoop w env freq respType fuel sent (initialDelay w l) [] := by
  unfold LROPoller.PollUntilDone
  unfold initialDelay at hw ⊢
  cases hr : l.resp with
  | none => rfl
  | some r =>
    rw [hr] at hw
    simp only at hw ⊢
    by_cases hpos : w.RetryAfter (some r) > 0
    · rw [if_pos hpos] at hw
      have hc : delay w 0 (w.RetryAfter (some r)) = none := hw 0 _ (by simp)
      simp only [if_pos hpos, hc]
    · simp only [if_neg hpos]

/-- A run of `PollUntilDone` through `n` polls that each leave the poller not
done, when the context is not done during the waits made so far: the loop goes
on from the poller those polls left, having waited `expectedDelays`. -/
lemma PollUntilDone_after (w : Waiting) (env : Env) (freq : Int) (respType : Option RespType)
    (n fuel : Nat) (l : LROPoller) (sent : List HttpRequest)
    (hp : l.pendingFor env n sent = true)
    (hw : ∀ j d, j < (expectedDelays w env freq l sent n).length → w.ctxErr j d = none) :
    l.PollUntilDone w env (n + fuel) sent freq respType =
      (l.afterPolls env n sent).1.pollLoop w env freq respType fuel (l.afterPolls env n sent).2
        (expectedDelays w env freq l sent n) (l.polledResps env n sent) := by
  have hlen : (expectedDelays w env freq l sent n).length = (initialDelay w l).length + n := by
    simp [expectedDelays, polledResps_length env n l sent hp]
  rw [PollUntilDone_start w env (n + fuel) l sent freq respType
    (by intro j d hj; exact hw j d (by omega))]
  rw [pollLoop_pending w env freq respType n fuel l sent _ _ hp
    (by intro j d hj; exact hw j d (by omega))]
  simp [expectedDelays]

/-- One turn of the loop of `PollUntilDone` on a poll that returns an error. -/
lemma pollLoop_error (w : Waiting) (env : Env) (freq : Int) (respType : Option RespType)
    (fuel : Nat) (l : LROPoller) (sent : List HttpRequest) (delays : List Int)
    (waitedOn : List (Option Response)) (o : Outcome) (e : Error)
    (hp : l.Poll env sent = .done o) (he : o.err = some e) :
    l.pollLoop w env freq respType (fuel + 1) sent delays waitedOn =
      some (.done {
        poller := o.poller, sent := o.sent, resp := none, err := some e
        decoded := none, delays := delays, waitedOn := waitedOn
        lastPoll := some o, finals := [] }) := by
  rw [LROPoller.pollLoop, hp]
  simp only [he]

/-- One turn of the loop of `PollUntilDone` on a poll that returns no error and
leaves the poller done. -/
lemma pollLoop_terminal (w : Waiting) (env : Env) (freq : Int) (respType : Option RespType)
    (fuel : Nat) (l : LROPoller) (sent : List HttpRequest) (delays : List Int)
    (waitedOn : List (Option Response)) (o : Outcome)
    (hp : l.Poll env sent = .done o) (he : o.err = none) (hd : o.poller.Done = true) :
    l.pollLoop w env freq respType (fuel + 1) sent delays waitedOn =
      some (match o.poller.FinalResponse env o.sent respType with
        | .panicked reason => .panicked reason
        | .done f =>
          .done {
            poller := f.poller, sent := f.sent, resp := f.resp, err := f.err
            decoded := f.decoded, delays := delays, waitedOn := waitedOn
            lastPoll := some o, finals := [o.poller] }) := by
  rw [LROPoller.pollLoop, hp]
  simp only [he, hd, if_true]
  cases o.poller.FinalResponse env o.sent respType <;> rfl

/-- One turn of the loop of `PollUntilDone` on a poll that returns no error and
leaves the poller not done. -/
lemma pollLoop_wait (w : Waiting) (env : Env) (freq : Int) (respType : Option RespType)
    (fuel : Nat) (l : LROPoller) (sent : List HttpRequest) (delays : List Int)
    (waitedOn : List (Option Response)) (o : Outcome)
    (hp : l.Poll env sent = .done o) (he : o.err = none) (hd : o.poller.Done = false) :
    l.pollLoop w env freq respType (fuel + 1) sent delays waitedOn =
      match w.ctxErr delays.length (nextDelay w freq o.resp) with
      | some err =>
        some (.done {
          poller := o.poller, sent := o.sent, resp := none, err := some err
          decoded := none, delays := delays ++ [nextDelay w freq o.resp]
          waitedOn := waitedOn ++ [o.resp], lastPoll := some o, finals := [] })
      | none =>
        o.poller.pollLoop w env freq respType fuel o.sent
          (delays ++ [nextDelay w freq o.resp]) (waitedOn ++ [o.resp]) := by
  rw [LROPoller.pollLoop, hp]
  simp only [he, hd, Bool.false_eq_true, if_false, delay, nextDelay]

/-- What a returning run of `PollUntilDone` leaves in its record: `FinalResponse`
was invoked at most once and only on a poller whose `Done` is true, and the
returned values are those of the run's last poll. -/
lemma PollUntilDone_record (w : Waiting) (env : Env) (fuel : Nat) (l : LROPoller)
    (sent : List HttpRequest) (freq : Int) (respType : Option RespType) (out : DriveOutcome)
    (h : l.PollUntilDone w env fuel sent freq respType = some (.done out)) :
    (out.finals = [] ∨ ∃ lf, out.finals = [lf]) ∧
    (∀ lf ∈ out.finals, lf.Done = true) ∧
    (∀ o, out.lastPoll = some o → o.err = none → o.poller.Done = true →
      out.finals = [o.poller] ∧
        o.poller.FinalResponse env o.sent respType =
          .done {
            poller := out.poller, sent := out.sent, resp := out.resp, err := out.err
            decoded := out.decoded }) ∧
    (∀ o e, out.lastPoll = some o → o.err = some e →
      out.finals = [] ∧ out.err = some e ∧ out.resp = none) ∧
    (out.finals = [] → out.resp = none ∧ out.err ≠ none) := by
  have key : ∀ delays, l.pollLoop w env freq respType fuel sent delays [] = some (.done out) →
      (out.finals = [] ∨ ∃ lf, out.finals = [lf]) ∧
      (∀ lf ∈ out.finals, lf.Done = true) ∧
      (∀ o, out.lastPoll = some o → o.err = none → o.poller.Done = true →
        out.finals = [o.poller] ∧
          o.poller.FinalResponse env o.sent respType =
            .done {
              poller := out.poller, sent := out.sent, resp := out.resp, err := out.err
              decoded := out.decoded }) ∧
      (∀ o e, out.lastPoll = some o → o.err = some e →
        out.finals = [] ∧ out.err = some e ∧ out.resp = none) ∧
      (out.finals = [] → out.resp = none ∧ out.err ≠ none) := by
    intro delays hl
    obtain ⟨_, o, hlast, herr, hterm, hwait⟩ :=
      pollLoop_record w env freq respType fuel l sent delays [] out hl
    have hinj : ∀ o2, out.lastPoll = some o2 → o2 = o := by
      intro o2 h2
      rw [hlast] at h2
      cases h2
      rfl
    cases he : o.err with
    | some e =>
      obtain ⟨f1, f2, f3, _, _⟩ := herr e he
      refine ⟨Or.inl f1, ?_, ?_, ?_, ?_⟩
      · intro lf hlf; rw [f1] at hlf; cases hlf
      · intro o2 h2 hn _; rw [hinj o2 h2, he] at hn; cases hn
      · intro o2 e2 h2 h3
        rw [hinj o2 h2, he] at h3
        cases h3
        exact ⟨f1, f2, f3⟩
      · intro _; exact ⟨f3, by rw [f2]; simp⟩
    | none =>
      cases hd : o.poller.Done with
      | true =>
        obtain ⟨f1, f2⟩ := hterm he hd
        refine ⟨Or.inr ⟨_, f1⟩, ?_, ?_, ?_, ?_⟩
        · intro lf hlf
          rw [f1] at hlf
          simp only [List.mem_singleton] at hlf
          rw [hlf]; exact hd
        · intro o2 h2 _ _; rw [hinj o2 h2]; exact ⟨f1, f2⟩
        · intro o2 e2 h2 h3; rw [hinj o2 h2, he] at h3; cases h3
        · intro hnil; rw [f1] at hnil; cases hnil
      | false =>
        obtain ⟨f1, f2, _, _, _, _, f3⟩ := hwait he hd
        refine ⟨Or.inl f1, ?_, ?_, ?_, ?_⟩
        · intro lf hlf; rw [f1] at hlf; cases hlf
        · intro o2 h2 _ hdd; rw [hinj o2 h2, hd] at hdd; cases hdd
        · intro o2 e2 h2 h3; rw [hinj o2 h2, he] at h3; cases h3
        · intro _; exact ⟨f2, f3⟩
  unfold LROPoller.PollUntilDone at h
  cases hr : l.resp with
  | none => rw [hr] at h; exact key _ h
  | some r =>
    rw [hr] at h
    simp only at h
    by_cases hpos : w.RetryAfter (some r) > 0
    · rw [if_pos hpos] at h
      cases hc : delay w 0 (w.RetryAfter (some r)) with
      | some err =>
        rw [hc] at h
        simp only [Option.some.injEq, Run.done.injEq] at h
        subst h
        simp
      | none => rw [hc] at h; exact key _ h
    · rw [if_neg hpos] at h
      exact key _ h

/-- C24: let the first `n` polls of a run of `PollUntilDone` each return no
error and leave the poller not done, and let the next poll return `o`, again
with no error and the poller not done. The delay after that poll, `nextDelay`,
is the `Retry-After` of `o`'s response when it is positive and the caller's
interval `freq` otherwise. With enough fuel for these polls, the run waits
exactly that long before it polls again: if the context is done during that
wait (and not during the waits before), the run returns the context's error
with no further poll, having waited, in order, the initial delay and
`nextDelay` of each poll's response; and if the context is not done during any
of these waits, the run goes on with a poll on the poller `o` left. -/
theorem PollUntilDone_delays (w : Waiting) (env : Env) (freq : Int)
    (respType : Option RespType) (n : Nat) (l : LROPoller) (sent : List HttpRequest)
    (o : Outcome)
    (hp : l.pendingFor env n sent = true)
    (ho : l.PollTimes env n sent = .done o)
    (herr : o.err = none) (hnd : o.poller.Done = false) :
    nextDelay w freq o.resp =
      (if w.RetryAfter o.resp > 0 then w.RetryAfter o.resp else freq) ∧
    (∀ e,
      (∀ j d, j < (expectedDelays w env freq l sent n).length → w.ctxErr j d = none) →
      w.ctxErr (expectedDelays w env freq l sent n).length (nextDelay w freq o.resp) = some e →
      ∀ fuel, l.PollUntilDone w env (n + 1 + fuel) sent freq respType =
        some (.done {
          poller := o.poller, sent := o.sent, resp := none, err := some e, decoded := none
          delays := expectedDelays w env freq l sent n ++ [nextDelay w freq o.resp]
          waitedOn := l.polledResps env n sent ++ [o.resp]
          lastPoll := some o, finals := [] })) ∧
    ((∀ j d, j < (expectedDelays w env freq l sent n).length + 1 → w.ctxErr j d = none) →
      ∀ fuel, l.PollUntilDone w env (n + 1 + fuel) sent freq respType =
        o.poller.pollLoop w env freq respType fuel o.sent
          (expectedDelays w env freq l sent n ++ [nextDelay w freq o.resp])
          (l.polledResps env n sent ++ [o.resp])) := by
  rw [PollTimes_afterPolls env n l sent hp] at ho
  refine ⟨rfl, ?_, ?_⟩
  · intro e hw hc fuel
    have hfuel : n + 1 + fuel = n + (fuel + 1) := by omega
    rw [hfuel, PollUntilDone_after w env freq respType n (fuel + 1) l sent hp hw,
      pollLoop_wait w env freq respType fuel _ _ _ _ o ho herr hnd, hc]
  · intro hw fuel
    have hfuel : n + 1 + fuel = n + (fuel + 1) := by omega
    rw [hfuel, PollUntilDone_after w env freq respType n (fuel + 1) l sent hp
        (fun j d hj => hw j d (by omega)),
      pollLoop_wait w env freq respType fuel _ _ _ _ o ho herr hnd,
      hw _ _ (Nat.lt_succ_self _)]

/-- C24 at the Location scenario with an interval of thirty seconds: the first
`202` carries `Retry-After: 5`, the second carries none. After the second poll
the run waits thirty seconds: a context that is done during a second wait of
thirty seconds ends the run there, after two polls and waits of five and thirty
seconds; with a context that is never done the run polls a third time and
returns, having made the same two waits. -/
theorem PollUntilDone_delays_witness :
    nextDelay Waiting.sample 30000000000 (some (scenarioPoll 202 "" true)) = 5000000000 ∧
    nextDelay Waiting.sample 30000000000 (some (scenarioPoll 202 "" false)) = 30000000000 ∧
    (∃ out : DriveOutcome,
      sampleDrive.PollUntilDone Waiting.deadline Env.sample 2 [] 30000000000 none =
        some (.done out) ∧
      out.err = some ⟨"context deadline exceeded"⟩ ∧
      out.sent = [{ Method := "GET", URL := "/op/2" }, { Method := "GET", URL := "/op/2" }] ∧
      out.delays = [5000000000, 30000000000]) ∧
    (∃ out : DriveOutcome,
      sampleDrive.PollUntilDone Waiting.sample Env.sample 3 [] 30000000000 none =
        some (.done out) ∧
      out.err = none ∧
      out.sent.length = 3 ∧
      out.delays = [5000000000, 30000000000]) :=
  ⟨(PollUntilDone_delays Waiting.sample Env.sample 30000000000 none 0 sampleDrive [] _
      rfl rfl rfl rfl).1.trans (by decide),
    (PollUntilDone_delays Waiting.sample Env.sample 30000000000 none 1 sampleDrive [] _
      rfl rfl rfl rfl).1.trans (by decide),
    ⟨_, (PollUntilDone_delays Waiting.deadline Env.sample 30000000000 none 1 sampleDrive [] _
      rfl rfl rfl rfl).2.1 ⟨"context deadline exceeded"⟩
        (fun j d hj => by
          have h0 : j = 0 := Nat.lt_one_iff.mp hj
          subst h0
          rfl)
        rfl 0, rfl, rfl, rfl⟩,
    ⟨_, ((PollUntilDone_delays Waiting.sample Env.sample 30000000000 none 1 sampleDrive [] _
      rfl rfl rfl rfl).2.2 (fun _ _ _ => rfl) 1).trans rfl, rfl, rfl, rfl⟩⟩

/-- C25, as stated, fails: a run of `PollUntilDone` whose poll is answered with
`404` reaches a terminal state by the recorded error, and returns that error
without invoking `FinalResponse`. -/
theorem PollUntilDone_error_skips_FinalResponse :
    ∃ out : DriveOutcome,
      samplePending.PollUntilDone Waiting.sample Env.sample 1 [] 30000000000 none =
        some (.done out) ∧
      out.poller.err = some ⟨"operation failed"⟩ ∧ out.poller.Done = true ∧
      out.finals = [] ∧ out.resp = none ∧ out.err = some ⟨"operation failed"⟩ :=
  ⟨_, rfl, rfl, rfl, rfl, rfl, rfl⟩

/-- C25, amended: let the first `n` polls of a run of `PollUntilDone` each
return no error and leave the poller not done, let the context not be done
during the waits made so far, and let the next poll return `o`. With enough fuel
for these polls the run returns. If `o` carries no error and leaves `Done` true,
the run invokes `FinalResponse` once, on the poller that poll left, and returns
its outcome (or panics as it does). If `o` carries an error, the recording of a
terminal error included, the run returns that error at once: it polls no more
and does not invoke `FinalResponse`. And whatever the run, when it returns it
has invoked `FinalResponse` at most once and only on a poller whose `Done` is
true. -/
theorem PollUntilDone_final (w : Waiting) (env : Env) (freq : Int)
    (respType : Option RespType) (n : Nat) (l : LROPoller) (sent : List HttpRequest)
    (o : Outcome)
    (hp : l.pendingFor env n sent = true)
    (hw : ∀ j d, j < (expectedDelays w env freq l sent n).length → w.ctxErr j d = none)
    (ho : l.PollTimes env n sent = .done o) :
    (o.err = none → o.poller.Done = true →
      ∀ fuel, l.PollUntilDone w env (n + 1 + fuel) sent freq respType =
        some (match o.poller.FinalResponse env o.sent respType with
          | .panicked reason => .panicked reason
          | .done f =>
            .done {
              poller := f.poller, sent := f.sent, resp := f.resp, err := f.err
              decoded := f.decoded
              delays := expectedDelays w env freq l sent n
              waitedOn := l.polledResps env n sent
              lastPoll := some o, finals := [o.poller] })) ∧
    (∀ e, o.err = some e →
      ∀ fuel, l.PollUntilDone w env (n + 1 + fuel) sent freq respType =
        some (.done {
          poller := o.poller, sent := o.sent, resp := none, err := some e, decoded := none
          delays := expectedDelays w env freq l sent n
          waitedOn := l.polledResps env n sent
          lastPoll := some o, finals := [] })) ∧
    (∀ fuel out, l.PollUntilDone w env fuel sent freq respType = some (.done out) →
      out.finals.length ≤ 1 ∧ ∀ lf ∈ out.finals, lf.Done = true) := by
  rw [PollTimes_afterPolls env n l sent hp] at ho
  refine ⟨?_, ?_, ?_⟩
  · intro herr hd fuel
    have hfuel : n + 1 + fuel = n + (fuel + 1) := by omega
    rw [hfuel, PollUntilDone_after w env freq respType n (fuel + 1) l sent hp hw,
      pollLoop_terminal w env freq respType fuel _ _ _ _ o ho herr hd]
  · intro e he fuel
    have hfuel : n + 1 + fuel = n + (fuel + 1) := by omega
    rw [hfuel, PollUntilDone_after w env freq respType n (fuel + 1) l sent hp hw,
      pollLoop_error w env freq respType fuel _ _ _ _ o e ho he]
  · intro fuel out h
    obtain ⟨h1, h2, _⟩ := PollUntilDone_record w env fuel l sent freq respType out h
    refine ⟨?_, h2⟩
    rcases h1 with h1 | ⟨lf, h1⟩ <;> rw [h1] <;> simp

/-- C25, amended, at the Location scenario: the first two polls leave the
poller not done and the third leaves `Done` true, so the run returns what
`FinalResponse` returns on the poller the third poll left; and at a poller whose
first poll is answered with `404`, where the run returns the recorded error. -/
theorem PollUntilDone_final_witness :
    (∃ (o : Outcome) (f : FinalOutcome),
      sampleDrive.PollTimes Env.sample 2 [] = .done o ∧ o.poller.Done = true ∧
      o.poller.FinalResponse Env.sample o.sent none = .done f ∧
      f.resp = some scenarioPost ∧
      sampleDrive.PollUntilDone Waiting.sample Env.sample 3 [] 30000000000 none =
        some (.done {
          poller := f.poller, sent := f.sent, resp := f.resp, err := f.err
          decoded := f.decoded
          delays := [5000000000, 30000000000]
          waitedOn := [some (scenarioPoll 202 "" true), some (scenarioPoll 202 "" false)]
          lastPoll := some o, finals := [o.poller] })) ∧
    (∃ o : Outcome,
      samplePending.PollTimes Env.sample 0 [] = .done o ∧
      samplePending.PollUntilDone Waiting.sample Env.sample 1 [] 30000000000 none =
        some (.done {
          poller := o.poller, sent := o.sent, resp := none
          err := some ⟨"operation failed"⟩, decoded := none
          delays := [], waitedOn := [], lastPoll := some o, finals := [] })) :=
  ⟨⟨_, _, rfl, rfl, rfl, rfl,
      ((PollUntilDone_final Waiting.sample Env.sample 30000000000 none 2 sampleDrive [] _
        rfl (fun _ _ _ => rfl) rfl).1 rfl rfl 0).trans rfl⟩,
    ⟨_, rfl,
      ((PollUntilDone_final Waiting.sample Env.sample 30000000000 none 0 samplePending [] _
        rfl (fun _ _ _ => rfl) rfl).2.1 ⟨"operation failed"⟩ rfl 0).trans rfl⟩⟩

/-! ## A failing final GET -/

lemma extractJSONValue_body (env : Env) (b : Body) (val : String) :
    (extractJSONValue env b val).2 = { b with unread := "" } := by
  unfold extractJSONValue Body.ReadAll
  cases b.readErr with
  | some err => rfl
  | none =>
    simp only
    split
    · rfl
    · split
      · rfl
      · split <;> rfl

/-- A non-empty final-GET URL comes from the Operation-Location strategy, which
has read the body of the cached response to its end. -/
lemma FinalGetURL_nonempty (env : Env) (l : LROPoller) (u : String)
    (resp1 : Option Response)
    (hu : l.lro.FinalGetURL env l.resp = .done (.ok u, resp1)) (hne : u ≠ "") :
    ∃ r, l.resp = some r ∧ resp1 = some { r with Body := { r.Body with unread := "" } } := by
  cases hl : l.lro with
  | loc p =>
    rw [hl] at hu
    simp only [lroPoller.FinalGetURL, locPoller.FinalGetURL, Run.done.injEq, Prod.mk.injEq,
      Except.ok.injEq] at hu
    exact absurd hu.1.symm hne
  | nop p =>
    rw [hl] at hu
    simp only [lroPoller.FinalGetURL, nopPoller.FinalGetURL, Run.done.injEq, Prod.mk.injEq,
      Except.ok.injEq] at hu
    exact absurd hu.1.symm hne
  | op p =>
    rw [hl] at hu
    simp only [lroPoller.FinalGetURL] at hu
    unfold opPoller.FinalGetURL at hu
    split at hu
    · simp at hu
    · cases hr : l.resp with
      | none => rw [hr] at hu; simp at hu
      | some r =>
        rw [hr] at hu
        simp only at hu
        have hb := extractJSONValue_body env r.Body "resourceLocation"
        rcases hx : extractJSONValue env r.Body "resourceLocation" with ⟨_ | resLoc, b1⟩
        · rw [hx] at hu; simp at hu
        · rw [hx] at hu hb
          simp only at hu hb
          subst hb
          refine ⟨r, rfl, ?_⟩
          split at hu
          · simp only [Run.done.injEq, Prod.mk.injEq] at hu
            exact hu.2.symm
          · split at hu
            · simp at hu
            · split at hu
              · simp only [Run.done.injEq, Prod.mk.injEq] at hu
                exact hu.2.symm
              · split at hu
                · simp only [Run.done.injEq, Prod.mk.injEq] at hu
                  exact hu.2.symm
                · simp only [Run.done.injEq, Prod.mk.injEq] at hu
                  exact hu.2.symm

/-- On a terminal poller whose strategy yields the non-empty final-GET URL `u`,
`FinalGetURL` has read the body of the cached response to its end. If the final
GET's response fails the classifier, `FinalResponse` returns the generic error
`TODO`, and if its send returns a transport error, that error as it is; in both
cases the poller is left with the cached response whose body has been read. -/
lemma FinalResponse_failed_GET (env : Env) (l : LROPoller)
    (sent : List HttpRequest) (ty : RespType) (u : String) (resp1 : Option Response)
    (req : HttpRequest)
    (hd : l.Done = true)
    (hu : l.lro.FinalGetURL env l.resp = .done (.ok u, resp1))
    (hne : u ≠ "")
    (hreq : NewRequest env MethodGet u = .ok req) :
    (∃ r, l.resp = some r ∧ resp1 = some { r with Body := { r.Body with unread := "" } }) ∧
    (∀ resp, l.pl.Do sent req = .ok resp →
      ¬ (resp.StatusCode = 200 ∨ resp.StatusCode = 201 ∨
        resp.StatusCode = 202 ∨ resp.StatusCode = 204) →
      l.FinalResponse env sent (some ty) =
        .done {
          poller := { lro := l.lro, pl := l.pl, eu := l.eu, resp := resp1, err := l.err }
          sent := sent ++ [req]
          resp := none
          err := some ⟨"TODO"⟩
          decoded := none }) ∧
    (∀ e, l.pl.Do sent req = .error e →
      l.FinalResponse env sent (some ty) =
        .done {
          poller := { lro := l.lro, pl := l.pl, eu := l.eu, resp := resp1, err := l.err }
          sent := sent ++ [req]
          resp := none
          err := some e
          decoded := none }) := by
  refine ⟨FinalGetURL_nonempty env l u resp1 hu hne, ?_, ?_⟩
  · intro resp hsend hcode
    have hv : lroStatusCodeValid resp = false := (lroStatusCodeValid_false resp).2 hcode
    unfold LROPoller.FinalResponse
    simp [hd, hu, hne, hreq, hsend, hv]
  · intro e hsend
    unfold LROPoller.FinalResponse
    simp [hd, hu, hne, hreq, hsend]

/-- C29: a `PUT` is answered with `201`, `Operation-Location:
https://example.org/op/1` and the body
`{"id":"42","resourceLocation":"https://example.org/res/42"}`; the poll returns
`{"status":"Succeeded"}`, so `Done` is true, and the strategy yields the final-GET
URL `https://example.org/res/42`. When the send of the final GET fails,
`FinalResponse` returns the transport error as it is and the recorded error is
still nil, but the cached response is not unchanged: its body has been read to
the end to find the URL, and a second call fails on it before it sends
anything. The same happens when the final GET is answered with `404`:
`FinalResponse` returns the generic error `TODO`, and the cached response is
left with its body read. -/
theorem FinalResponse_failed_GET_drains_cached_response :
    (∃ (l0 : LROPoller) (o : Outcome) (f g : FinalOutcome),
      NewLROPoller scenarioCreated (Pipeline.replay [scenarioPolled])
          (some sampleUnmarshaller) = (some l0, none) ∧
      l0.Poll Env.hosted [] = .done o ∧ o.err = none ∧ o.poller.Done = true ∧
      o.sent = [{ Method := "GET", URL := "https://example.org/op/1" }] ∧
      o.poller.resp = some scenarioCreated ∧
      o.poller.lro.FinalGetURL Env.hosted o.poller.resp =
        .done (.ok "https://example.org/res/42",
          some { scenarioCreated with Body := Body.ofBytes "" }) ∧
      o.poller.FinalResponse Env.hosted o.sent (some "Resource") = .done f ∧
      f.err = some ⟨"no response recorded"⟩ ∧ f.resp = none ∧
      f.sent = o.sent ++ [{ Method := "GET", URL := "https://example.org/res/42" }] ∧
      f.poller.err = none ∧
      f.poller.resp = some { scenarioCreated with Body := Body.ofBytes "" } ∧
      f.poller.resp ≠ o.poller.resp ∧
      f.poller.FinalResponse Env.hosted f.sent (some "Resource") = .done g ∧
      g.sent = f.sent ∧ g.resp = none ∧
      g.err = some ⟨"unexpected end of JSON input"⟩) ∧
    (∃ (l0 : LROPoller) (o : Outcome) (f : FinalOutcome),
      NewLROPoller scenarioCreated (Pipeline.replay [scenarioPolled, scenarioGone])
          (some sampleUnmarshaller) = (some l0, none) ∧
      l0.Poll Env.hosted [] = .done o ∧ o.err = none ∧ o.poller.Done = true ∧
      o.poller.resp = some scenarioCreated ∧
      o.poller.FinalResponse Env.hosted o.sent (some "Resource") = .done f ∧
      f.err = some ⟨"TODO"⟩ ∧ f.resp = none ∧
      f.sent = o.sent ++ [{ Method := "GET", URL := "https://example.org/res/42" }] ∧
      f.poller.err = none ∧
      f.poller.resp = some { scenarioCreated with Body := Body.ofBytes "" } ∧
      f.poller.resp ≠ o.poller.resp) :=
  ⟨⟨_, _, _, _, rfl, rfl, rfl, by decide, rfl, rfl, rfl, rfl, rfl, rfl, rfl, rfl, rfl,
      by decide, rfl, rfl, rfl, rfl⟩,
    ⟨_, _, _, rfl, rfl, rfl, by decide, rfl, rfl, rfl, rfl, rfl, rfl, rfl, by decide⟩⟩

end azcore

namespace testframework

/-! ## `sanitizeHeaders` -/

lemma sanitize_foldl (names : List String) (header : HeaderMap) (k : String) :
    names.foldl
        (fun header headerName =>
          match header headerName with
          | some _ => HeaderMap.set header headerName sanitizedValueSlice
          | none => header)
        header k =
      if k ∈ names ∧ (header k).isSome then some ["sanitized"] else header k := by
  induction names generalizing header with
  | nil => simp
  | cons n ns ih =>
    rw [List.foldl_cons, ih]
    cases hn : header n with
    | none =>
      simp only [List.mem_cons]
      by_cases hk : k = n
      · subst hk; simp [hn]
      · simp [hk]
    | some v =>
      simp only [List.mem_cons, HeaderMap.set, sanitizedValueSlice, SanitizedValue]
      by_cases hk : k = n
      · subst hk; simp [hn]
      · simp [hk]

lemma AddSanitizedHeaders_mem (headers : List String) (s : RecordingSanitizer) (n : String) :
    n ∈ (s.AddSanitizedHeaders headers).headersToSanitize ↔
      n ∈ s.headersToSanitize ∨ n ∈ headers := by
  unfold RecordingSanitizer.AddSanitizedHeaders
  induction headers generalizing s with
  | nil => simp
  | cons h hs ih =>
    rw [List.foldl_cons, ih]
    by_cases hm : h ∈ s.headersToSanitize
    · simp only [hm, if_true, List.mem_cons]
      constructor
      · rintro (h1 | h1)
        · exact Or.inl h1
        · exact Or.inr (Or.inr h1)
      · rintro (h1 | h1 | h1)
        · exact Or.inl h1
        · subst h1; exact Or.inl hm
        · exact Or.inr h1
    · simp only [hm, if_false, List.mem_append, List.mem_singleton, List.mem_cons]
      tauto

/-- C26: `sanitizeHeaders` leaves under each key `k` of the header map the
value `["sanitized"]` when `k` is a configured name and a key of the map, and
what was there otherwise: it adds no key and changes no other header. The
default sanitizer's configured names contain `Authorization`, and
`AddSanitizedHeaders` adds the names it is given to the configured ones. -/
theorem sanitizeHeaders_spec (s : RecordingSanitizer) (header : HeaderMap) (k : String)
    (added : List String) :
    s.sanitizeHeaders header k =
      (if k ∈ s.headersToSanitize ∧ (header k).isSome then some ["sanitized"]
       else header k) ∧
    (header k = none → s.sanitizeHeaders header k = none) ∧
    (k ∉ s.headersToSanitize → s.sanitizeHeaders header k = header k) ∧
    "Authorization" ∈ DefaultSanitizer.headersToSanitize ∧
    (k ∈ (s.AddSanitizedHeaders added).headersToSanitize ↔
      k ∈ s.headersToSanitize ∨ k ∈ added) := by
  have h := sanitize_foldl s.headersToSanitize header k
  refine ⟨h, ?_, ?_, by decide, AddSanitizedHeaders_mem added s k⟩
  · intro hk
    unfold RecordingSanitizer.sanitizeHeaders
    rw [h, hk]
    simp
  · intro hk
    unfold RecordingSanitizer.sanitizeHeaders
    rw [h]
    simp [hk]

end testframework
